import Mathlib

/-!
Well-Injection-Calculation: verification of the hydraulics engine

Shallow embedding of `src/engine/WellHydraulics.ts` (and its twin
`src/services/calculatorService.ts`) together with the numeric constants of
`src/constants/physics.ts`.

Modelling conventions:
* JavaScript numbers are embedded as exact rationals (`ℚ`); numeric literals
  of the source are taken at their decimal value and arithmetic is exact
  (no floating-point rounding is modelled).
* The two transcendental library routines the engine calls —
  `Math.log10` and `Math.pow` with a non-integer exponent — are kept
  uninterpreted: every definition is parametrised by an `Ops` record holding
  them, and the theorems are proved for an arbitrary interpretation.
  `Math.pow x 2`, `Math.pow x 3` (integer exponents) are embedded as `x ^ 2`,
  `x ^ 3`, and `Math.pow x 1` returns `x` (this is exact in IEEE semantics),
  see `powR`.
* `throw` in the source is embedded as `Except.error` with a dedicated
  error datatype; a thrown calculation produces no partial result by
  construction.
* The only strings the engine ever pushes into `warnings` are the
  cavitation-risk messages (`Cavitation risk: ... segment ${index+1} ...`),
  so the warnings list is embedded as the list of the 1-based segment
  indices those messages carry; `warnings.some(w => w.startsWith('Cavitation
  risk:'))` is then "the list is non-empty".
* `JavaScript `Infinity` (the `maxFlowRate = Infinity` case) is embedded by
  the two-constructor type `MaxFlow`.
-/

/-- Uninterpreted transcendental primitives used by the engine:
`log10` embeds `Math.log10`, `rpow` embeds `Math.pow` at the non-integer
exponents the engine uses (`0.9` and `1/flowExponent` when that is not 1). -/
structure Ops where
  log10 : ℚ → ℚ
  rpow : ℚ → ℚ → ℚ

/-! ## Constants (src/constants/physics.ts) -/

/-- `GRAVITY = 9.81` (m/s²). -/
def GRAVITY : ℚ := 981 / 100

/-- `PI = Math.PI`: the exact rational value of the IEEE double `Math.PI`. -/
def PI : ℚ := 884279719003555 / 281474976710656

/-- `LAMINAR_FLOW_LIMIT = 2300`. -/
def LAMINAR_FLOW_LIMIT : ℚ := 2300

/-- `TURBULENT_FLOW_START = 4000`. -/
def TURBULENT_FLOW_START : ℚ := 4000

/-- `SECONDS_PER_DAY = 86400`. -/
def SECONDS_PER_DAY : ℚ := 86400

/-- `ENTRY_LOSS_COEFFICIENT = 0.5`. -/
def ENTRY_LOSS_COEFFICIENT : ℚ := 1 / 2

/-- `DEFAULT_OPEN_HOLE_ROUGHNESS = 0.5` (mm). -/
def DEFAULT_OPEN_HOLE_ROUGHNESS : ℚ := 1 / 2

/-! ## Data model (src/unnamed/part_002, the `types` module) -/

/-- `Segment`: one tubing section (`diameter`/`roughness` in mm, `length` in m). -/
structure Segment where
  id : Int
  diameter : ℚ
  length : ℚ
  roughness : ℚ
deriving DecidableEq

/-- `CalculationParams`. -/
structure CalculationParams where
  segments : List Segment
  flowRate : ℚ
  injectionPressure : ℚ
  bottomholePressure : ℚ
  fluidDensity : ℚ
  fluidViscosity : ℚ
  wellDepth : ℚ
  openHoleDiameter : ℚ
deriving DecidableEq

/-- The three flow-regime tags. -/
inductive FlowRegime where
  | Laminar
  | Transitional
  | Turbulent
deriving DecidableEq

/-- `SegmentResult`. -/
structure SegmentResult where
  segmentNumber : Nat
  diameter : ℚ
  length : ℚ
  depthFrom : ℚ
  depthTo : ℚ
  velocity : ℚ
  reynoldsNumber : ℚ
  flowRegime : FlowRegime
  frictionFactor : ℚ
  frictionLoss : ℚ
  hydrostaticGain : ℚ
  minorLoss : ℚ
  netPressureChange : ℚ
  inletPressure : ℚ
  outletPressure : ℚ
deriving DecidableEq

/-- The `maxFlowRate` field: a finite rational or JavaScript `Infinity`. -/
inductive MaxFlow where
  | val (q : ℚ)
  | inf
deriving DecidableEq

/-- `CalculationResults`.  `warnings` is `none` when the source leaves the
field `undefined` (empty warning list). -/
structure CalculationResults where
  segments : List SegmentResult
  totalFrictionLoss : ℚ
  totalPressureDrop : ℚ
  bottomPressure : ℚ
  maxFlowRate : MaxFlow
  actualFlowRate : ℚ
  maxSegmentVelocity : ℚ
  maxVelocitySegment : Nat
  warnings : Option (List Nat)
deriving DecidableEq

/-- The configuration errors `calculatePressureDrop` can throw. -/
inductive CalcError where
  | openHoleDiameterRequired
  | invalidDiameter (idx : Nat)
  | invalidArea (idx : Nat)
deriving DecidableEq

/-! ## The engine: WellHydraulics (src/engine/WellHydraulics.ts) -/

namespace WellHydraulics

/-- `WellHydraulics.calculateReynolds` (lines 35–38):
returns 0 when viscosity or diameter is 0, else `ρ·V·D/μ`. -/
def calculateReynolds (velocity diameter density viscosity : ℚ) : ℚ :=
  if viscosity = 0 ∨ diameter = 0 then 0
  else density * velocity * diameter / viscosity

/-- `WellHydraulics.calculateTurbulentFriction` (lines 56–62), the
Swamee–Jain equation with the `max(relativeRoughness, 1e-10)` guard. -/
def calculateTurbulentFriction (ops : Ops) (Re relativeRoughness : ℚ) : ℚ :=
  let effectiveRoughness := max relativeRoughness (1 / 10 ^ 10)
  let logTerm := ops.log10 (effectiveRoughness / (37 / 10) + (574 / 100) / ops.rpow Re (9 / 10))
  (1 / 4) / logTerm ^ 2

/-- `WellHydraulics.calculateFrictionFactor` (lines 80–96). -/
def calculateFrictionFactor (ops : Ops) (Re relativeRoughness : ℚ) : ℚ :=
  if Re ≤ 0 then 0
  else if Re < LAMINAR_FLOW_LIMIT then 64 / Re
  else if LAMINAR_FLOW_LIMIT ≤ Re ∧ Re < TURBULENT_FLOW_START then
    let laminarF := 64 / LAMINAR_FLOW_LIMIT
    let turbulentF := calculateTurbulentFriction ops TURBULENT_FLOW_START relativeRoughness
    let fraction := (Re - LAMINAR_FLOW_LIMIT) / (TURBULENT_FLOW_START - LAMINAR_FLOW_LIMIT)
    laminarF + fraction * (turbulentF - laminarF)
  else calculateTurbulentFriction ops Re relativeRoughness

end WellHydraulics

/-! ## Per-segment quantities of the pressure march

Each helper below embeds one group of lines of the loop body of
`calculatePressureDrop` (lines 154–241).  None of them depends on the running
state, which lets the march be characterised segment by segment. -/

/-- `const D = segment.diameter / 1000` (line 156). -/
def segD (seg : Segment) : ℚ := seg.diameter / 1000

/-- `const A = PI * Math.pow(D / 2, 2)` (line 161). -/
def segA (seg : Segment) : ℚ := PI * (segD seg / 2) ^ 2

/-- `const V = Q / A` (line 164). -/
def segV (Q : ℚ) (seg : Segment) : ℚ := Q / segA seg

/-- `const Re = this.calculateReynolds(V, D, fluidDensity, fluidViscosity)`
(line 171). -/
def segRe (density viscosity Q : ℚ) (seg : Segment) : ℚ :=
  WellHydraulics.calculateReynolds (segV Q seg) (segD seg) density viscosity

/-- `const relativeRoughness = segment.roughness / (D * 1000)` (line 172). -/
def segRR (seg : Segment) : ℚ := seg.roughness / (segD seg * 1000)

/-- `const f = this.calculateFrictionFactor(Re, relativeRoughness)` (line 173). -/
def segF (ops : Ops) (density viscosity Q : ℚ) (seg : Segment) : ℚ :=
  WellHydraulics.calculateFrictionFactor ops (segRe density viscosity Q seg) (segRR seg)

/-- `const hf = V === 0 ? 0 : f * (L / D) * (V² / (2 * GRAVITY))` (line 175). -/
def segHf (ops : Ops) (density viscosity Q : ℚ) (seg : Segment) : ℚ :=
  if segV Q seg = 0 then 0
  else segF ops density viscosity Q seg * (seg.length / segD seg) *
    ((segV Q seg) ^ 2 / (2 * GRAVITY))

/-- `const frictionPressureLoss = fluidDensity * GRAVITY * hf` (line 176). -/
def segFric (ops : Ops) (density viscosity Q : ℚ) (seg : Segment) : ℚ :=
  density * GRAVITY * segHf ops density viscosity Q seg

/-- Entry loss (lines 180–183): applied only at `index === 0`. -/
def entryLossOf (density Q : ℚ) (index : Nat) (seg : Segment) : ℚ :=
  if index = 0 then ENTRY_LOSS_COEFFICIENT * density * (segV Q seg) ^ 2 / 2 else 0

/-- Contraction/expansion transition loss (lines 185–202), computed from the
previous segment when there is one. -/
def transLossOf (density Q : ℚ) (prev : Option Segment) (seg : Segment) : ℚ :=
  match prev with
  | none => 0
  | some p =>
    let A := segA seg
    let prevA := segA p
    if A > 0 ∧ prevA > 0 ∧ Q > 0 then
      let prevV := Q / prevA
      if A < prevA then
        let areaRatio := A / prevA
        let Cc := 62 / 100 + 38 / 100 * areaRatio ^ 3
        let Kc := (1 / Cc - 1) ^ 2
        Kc * density * (segV Q seg) ^ 2 / 2
      else if A > prevA then
        let Ke := (1 - prevA / A) ^ 2
        Ke * density * prevV ^ 2 / 2
      else 0
    else 0

/-- The minor loss of one segment (lines 179–202): entry loss on the very
first segment, plus the transition loss from the previous segment. -/
def segMinor (density Q : ℚ) (prev : Option Segment) (index : Nat) (seg : Segment) : ℚ :=
  entryLossOf density Q index seg + transLossOf density Q prev seg

/-- `const netPressureChange = hydrostaticGain - frictionPressureLoss - minorLoss`
(line 205). -/
def segNet (ops : Ops) (density viscosity Q : ℚ) (prev : Option Segment) (index : Nat)
    (seg : Segment) : ℚ :=
  density * GRAVITY * seg.length - segFric ops density viscosity Q seg -
    segMinor density Q prev index seg

/-- `const flowRegime = Re < LAMINAR ? 'Laminar' : Re < TURB ? 'Transitional'
: 'Turbulent'` (line 216). -/
def segRegime (density viscosity Q : ℚ) (seg : Segment) : FlowRegime :=
  if segRe density viscosity Q seg < LAMINAR_FLOW_LIMIT then .Laminar
  else if segRe density viscosity Q seg < TURBULENT_FLOW_START then .Transitional
  else .Turbulent

/-! ## The pressure march -/

/-- Mutable state of the loop of `calculatePressureDrop` (lines 129–138). -/
structure MarchState where
  currentPressure : ℚ
  totalFrictionLoss : ℚ
  totalPressureDrop : ℚ
  segmentResults : List SegmentResult
  warnings : List Nat
  cumulativeDepth : ℚ
  maxVelocity : ℚ
  maxVelocitySegment : Nat
  frictionLosses : List (ℚ × FlowRegime)
deriving DecidableEq

/-- One iteration of the loop (lines 154–241).  `prev` is
`allSegments[index-1]` (`none` when `index = 0`). -/
def marchStep (ops : Ops) (density viscosity Q : ℚ) (prev : Option Segment) (index : Nat)
    (seg : Segment) (st : MarchState) : Except CalcError MarchState :=
  if segD seg ≤ 0 then .error (.invalidDiameter (index + 1))
  else if segA seg ≤ 0 then .error (.invalidArea (index + 1))
  else
    let V := segV Q seg
    let frictionPressureLoss := segFric ops density viscosity Q seg
    let hydrostaticGain := density * GRAVITY * seg.length
    let minorLoss := segMinor density Q prev index seg
    let inletPressure := st.currentPressure
    let netPressureChange := hydrostaticGain - frictionPressureLoss - minorLoss
    let newPressure := st.currentPressure + netPressureChange
    let newWarnings :=
      if newPressure < 0 ∧ st.warnings = [] then st.warnings ++ [index + 1] else st.warnings
    let depthFrom := st.cumulativeDepth
    let newDepth := st.cumulativeDepth + seg.length
    let regime := segRegime density viscosity Q seg
    let res : SegmentResult :=
      { segmentNumber := index + 1
        diameter := seg.diameter
        length := seg.length
        depthFrom := depthFrom
        depthTo := newDepth
        velocity := V
        reynoldsNumber := segRe density viscosity Q seg
        flowRegime := regime
        frictionFactor := segF ops density viscosity Q seg
        frictionLoss := frictionPressureLoss / 1000
        hydrostaticGain := hydrostaticGain / 1000
        minorLoss := minorLoss / 1000
        netPressureChange := netPressureChange / 1000
        inletPressure := inletPressure / 1000
        outletPressure := newPressure / 1000 }
    .ok
      { currentPressure := newPressure
        totalFrictionLoss := st.totalFrictionLoss + frictionPressureLoss
        totalPressureDrop := st.totalPressureDrop + (frictionPressureLoss + minorLoss)
        segmentResults :=
          if seg.id ≠ -1 then st.segmentResults ++ [res] else st.segmentResults
        warnings := newWarnings
        cumulativeDepth := newDepth
        maxVelocity := if V > st.maxVelocity then V else st.maxVelocity
        maxVelocitySegment := if V > st.maxVelocity then index + 1 else st.maxVelocitySegment
        frictionLosses := st.frictionLosses ++ [(frictionPressureLoss, regime)] }

/-- The whole loop: fold `marchStep` over the effective segment list. -/
def marchSegs (ops : Ops) (density viscosity Q : ℚ) :
    List Segment → Option Segment → Nat → MarchState → Except CalcError MarchState
  | [], _, _, st => .ok st
  | seg :: rest, prev, index, st =>
    match marchStep ops density viscosity Q prev index seg st with
    | .error e => .error e
    | .ok st' => marchSegs ops density viscosity Q rest (some seg) (index + 1) st'

/-! ## Effective segment list and the entry point -/

/-- `segments.reduce((sum, seg) => sum + (seg.length || 0), 0)` (line 141);
`x || 0` is the identity on (non-NaN) numbers. -/
def totalSegmentLength (segs : List Segment) : ℚ := (segs.map (·.length)).sum

/-- `const openHoleLength = Math.max(0, wellDepth - totalSegmentLength)` (line 142). -/
def openHoleLength (p : CalculationParams) : ℚ :=
  max 0 (p.wellDepth - totalSegmentLength p.segments)

/-- The synthetic open-hole segment pushed at lines 146–151. -/
def openHoleSeg (p : CalculationParams) : Segment :=
  { id := -1
    diameter := p.openHoleDiameter
    length := openHoleLength p
    roughness := DEFAULT_OPEN_HOLE_ROUGHNESS }

/-- The effective segment list `allSegments` (lines 140–152). -/
def effectiveSegments (p : CalculationParams) : List Segment :=
  if openHoleLength p > 1 / 10 then p.segments ++ [openHoleSeg p] else p.segments

/-- `reduce((max, current) => current.loss > max.loss ? current : max)`
(line 245): first element attaining the maximal loss. -/
def firstMaxLoss : List (ℚ × FlowRegime) → Option (ℚ × FlowRegime)
  | [] => none
  | x :: xs => some (xs.foldl (fun m c => if c.1 > m.1 then c else m) x)

/-- `Math.pow x e` at the exponents used for the max-flow extrapolation:
`Math.pow x 1 = x` exactly (IEEE), any other exponent stays uninterpreted. -/
def powR (ops : Ops) (x e : ℚ) : ℚ := if e = 1 then x else ops.rpow x e

/-- The initial state of the march (lines 129–138). -/
def initState (p : CalculationParams) : MarchState :=
  { currentPressure := p.injectionPressure * 1000
    totalFrictionLoss := 0
    totalPressureDrop := 0
    segmentResults := []
    warnings := []
    cumulativeDepth := 0
    maxVelocity := 0
    maxVelocitySegment := 0
    frictionLosses := [] }

/-- `availablePressure = injectionPressure·1000 + ρ·g·wellDepth −
bottomholePressure·1000` (lines 252–253). -/
def availP (p : CalculationParams) : ℚ :=
  p.injectionPressure * 1000 + p.fluidDensity * GRAVITY * p.wellDepth -
    p.bottomholePressure * 1000

/-- The `maxFlowRate` computed after the march (lines 243–262): dominant
regime from the first maximal friction-loss entry, flow exponent 1 for
laminar and 2 otherwise, then the three-way estimate. -/
def mkMaxFlow (ops : Ops) (p : CalculationParams) (st : MarchState) : MaxFlow :=
  let dominantLaminar : Bool :=
    match firstMaxLoss st.frictionLosses with
    | some m => m.2 = FlowRegime.Laminar
    | none => false
  let flowExponent : ℚ := if dominantLaminar then 1 else 2
  if availP p ≤ 0 then .val 0
  else if st.totalPressureDrop ≤ 0 ∨ p.flowRate / SECONDS_PER_DAY = 0 then .inf
  else .val (p.flowRate * powR ops (availP p / st.totalPressureDrop) (1 / flowExponent))

/-- The returned `CalculationResults` record (lines 264–274). -/
def mkResults (ops : Ops) (p : CalculationParams) (st : MarchState) : CalculationResults :=
  { segments := st.segmentResults
    totalFrictionLoss := st.totalFrictionLoss / 1000
    totalPressureDrop := st.totalPressureDrop / 1000
    bottomPressure := st.currentPressure / 1000
    maxFlowRate := mkMaxFlow ops p st
    actualFlowRate := p.flowRate
    maxSegmentVelocity := st.maxVelocity
    maxVelocitySegment := st.maxVelocitySegment
    warnings := if st.warnings ≠ [] then some st.warnings else none }

namespace WellHydraulics

/-- `WellHydraulics.calculatePressureDrop` (lines 122–275): the open-hole
precondition check, the march over the effective segments, and the assembly
of the result record. -/
def calculatePressureDrop (ops : Ops) (p : CalculationParams) :
    Except CalcError CalculationResults :=
  if openHoleLength p > 1 / 10 ∧ p.openHoleDiameter ≤ 0 then
    .error .openHoleDiameterRequired
  else
    match marchSegs ops p.fluidDensity p.fluidViscosity (p.flowRate / SECONDS_PER_DAY)
        (effectiveSegments p) none 0 (initState p) with
    | .error e => .error e
    | .ok st => .ok (mkResults ops p st)

end WellHydraulics

/-! ## The second engine: CalculatorService (src/services/calculatorService.ts)

`calculatorService.ts` repeats the whole engine line for line (only the class
name differs), so its embedding repeats the definitions above, translated
from that file. -/

namespace CalculatorService

/-- `CalculatorService.calculateReynolds` (calculatorService.ts lines 7–10). -/
def calculateReynolds (velocity diameter density viscosity : ℚ) : ℚ :=
  if viscosity = 0 ∨ diameter = 0 then 0
  else density * velocity * diameter / viscosity

/-- `CalculatorService.calculateTurbulentFriction` (lines 12–18). -/
def calculateTurbulentFriction (ops : Ops) (Re relativeRoughness : ℚ) : ℚ :=
  let effectiveRoughness := max relativeRoughness (1 / 10 ^ 10)
  let logTerm := ops.log10 (effectiveRoughness / (37 / 10) + (574 / 100) / ops.rpow Re (9 / 10))
  (1 / 4) / logTerm ^ 2

/-- `CalculatorService.calculateFrictionFactor` (lines 20–31). -/
def calculateFrictionFactor (ops : Ops) (Re relativeRoughness : ℚ) : ℚ :=
  if Re ≤ 0 then 0
  else if Re < LAMINAR_FLOW_LIMIT then 64 / Re
  else if LAMINAR_FLOW_LIMIT ≤ Re ∧ Re < TURBULENT_FLOW_START then
    let laminarF := 64 / LAMINAR_FLOW_LIMIT
    let turbulentF := calculateTurbulentFriction ops TURBULENT_FLOW_START relativeRoughness
    let fraction := (Re - LAMINAR_FLOW_LIMIT) / (TURBULENT_FLOW_START - LAMINAR_FLOW_LIMIT)
    laminarF + fraction * (turbulentF - laminarF)
  else calculateTurbulentFriction ops Re relativeRoughness

/-- One iteration of the loop of `CalculatorService.calculatePressureDrop`
(calculatorService.ts lines 65–152). -/
def marchStep (ops : Ops) (density viscosity Q : ℚ) (prev : Option Segment) (index : Nat)
    (seg : Segment) (st : MarchState) : Except CalcError MarchState :=
  let D := seg.diameter / 1000
  if D ≤ 0 then .error (.invalidDiameter (index + 1))
  else
    let A := PI * (D / 2) ^ 2
    if A ≤ 0 then .error (.invalidArea (index + 1))
    else
      let V := Q / A
      let Re := calculateReynolds V D density viscosity
      let relativeRoughness := seg.roughness / (D * 1000)
      let f := calculateFrictionFactor ops Re relativeRoughness
      let hf := if V = 0 then 0 else f * (seg.length / D) * (V ^ 2 / (2 * GRAVITY))
      let frictionPressureLoss := density * GRAVITY * hf
      let hydrostaticGain := density * GRAVITY * seg.length
      let minorLoss :=
        (if index = 0 then ENTRY_LOSS_COEFFICIENT * density * V ^ 2 / 2 else 0) +
        (match prev with
         | none => 0
         | some pseg =>
           let prevD := pseg.diameter / 1000
           let prevA := PI * (prevD / 2) ^ 2
           if A > 0 ∧ prevA > 0 ∧ Q > 0 then
             let prevV := Q / prevA
             if A < prevA then
               let areaRatio := A / prevA
               let Cc := 62 / 100 + 38 / 100 * areaRatio ^ 3
               let Kc := (1 / Cc - 1) ^ 2
               Kc * density * V ^ 2 / 2
             else if A > prevA then
               let Ke := (1 - prevA / A) ^ 2
               Ke * density * prevV ^ 2 / 2
             else 0
           else 0)
      let inletPressure := st.currentPressure
      let netPressureChange := hydrostaticGain - frictionPressureLoss - minorLoss
      let newPressure := st.currentPressure + netPressureChange
      let newWarnings :=
        if newPressure < 0 ∧ st.warnings = [] then st.warnings ++ [index + 1] else st.warnings
      let depthFrom := st.cumulativeDepth
      let newDepth := st.cumulativeDepth + seg.length
      let regime : FlowRegime :=
        if Re < LAMINAR_FLOW_LIMIT then .Laminar
        else if Re < TURBULENT_FLOW_START then .Transitional
        else .Turbulent
      let res : SegmentResult :=
        { segmentNumber := index + 1
          diameter := seg.diameter
          length := seg.length
          depthFrom := depthFrom
          depthTo := newDepth
          velocity := V
          reynoldsNumber := Re
          flowRegime := regime
          frictionFactor := f
          frictionLoss := frictionPressureLoss / 1000
          hydrostaticGain := hydrostaticGain / 1000
          minorLoss := minorLoss / 1000
          netPressureChange := netPressureChange / 1000
          inletPressure := inletPressure / 1000
          outletPressure := newPressure / 1000 }
      .ok
        { currentPressure := newPressure
          totalFrictionLoss := st.totalFrictionLoss + frictionPressureLoss
          totalPressureDrop := st.totalPressureDrop + (frictionPressureLoss + minorLoss)
          segmentResults :=
            if seg.id ≠ -1 then st.segmentResults ++ [res] else st.segmentResults
          warnings := newWarnings
          cumulativeDepth := newDepth
          maxVelocity := if V > st.maxVelocity then V else st.maxVelocity
          maxVelocitySegment := if V > st.maxVelocity then index + 1 else st.maxVelocitySegment
          frictionLosses := st.frictionLosses ++ [(frictionPressureLoss, regime)] }

/-- The loop of `CalculatorService.calculatePressureDrop`. -/
def marchSegs (ops : Ops) (density viscosity Q : ℚ) :
    List Segment → Option Segment → Nat → MarchState → Except CalcError MarchState
  | [], _, _, st => .ok st
  | seg :: rest, prev, index, st =>
    match marchStep ops density viscosity Q prev index seg st with
    | .error e => .error e
    | .ok st' => marchSegs ops density viscosity Q rest (some seg) (index + 1) st'

/-- `CalculatorService.calculatePressureDrop` (calculatorService.ts lines 33–187). -/
def calculatePressureDrop (ops : Ops) (p : CalculationParams) :
    Except CalcError CalculationResults :=
  let Q := p.flowRate / SECONDS_PER_DAY
  let totalSegLen := (p.segments.map (·.length)).sum
  let ohLen := max 0 (p.wellDepth - totalSegLen)
  if ohLen > 1 / 10 ∧ p.openHoleDiameter ≤ 0 then
    .error .openHoleDiameterRequired
  else
    let allSegments :=
      if ohLen > 1 / 10 then
        p.segments ++
          [{ id := -1, diameter := p.openHoleDiameter, length := ohLen,
             roughness := DEFAULT_OPEN_HOLE_ROUGHNESS }]
      else p.segments
    let st0 : MarchState :=
      { currentPressure := p.injectionPressure * 1000
        totalFrictionLoss := 0
        totalPressureDrop := 0
        segmentResults := []
        warnings := []
        cumulativeDepth := 0
        maxVelocity := 0
        maxVelocitySegment := 0
        frictionLosses := [] }
    match marchSegs ops p.fluidDensity p.fluidViscosity Q allSegments none 0 st0 with
    | .error e => .error e
    | .ok st =>
      let dominantLaminar : Bool :=
        match firstMaxLoss st.frictionLosses with
        | some m => m.2 = FlowRegime.Laminar
        | none => false
      let flowExponent : ℚ := if dominantLaminar then 1 else 2
      let totalHydrostatic := p.fluidDensity * GRAVITY * p.wellDepth
      let availablePressure :=
        p.injectionPressure * 1000 + totalHydrostatic - p.bottomholePressure * 1000
      let maxFlowRate : MaxFlow :=
        if availablePressure ≤ 0 then .val 0
        else if st.totalPressureDrop ≤ 0 ∨ Q = 0 then .inf
        else .val (p.flowRate * powR ops (availablePressure / st.totalPressureDrop) (1 / flowExponent))
      .ok
        { segments := st.segmentResults
          totalFrictionLoss := st.totalFrictionLoss / 1000
          totalPressureDrop := st.totalPressureDrop / 1000
          bottomPressure := st.currentPressure / 1000
          maxFlowRate := maxFlowRate
          actualFlowRate := p.flowRate
          maxSegmentVelocity := st.maxVelocity
          maxVelocitySegment := st.maxVelocitySegment
          warnings := if st.warnings ≠ [] then some st.warnings else none }

end CalculatorService

/-! ## Specification-side definitions

These follow the wording of the specification / claims, to be compared with
the source-side definitions above. -/

/-- "the Swamee–Jain value `0.25 / (log10(max(rr, 1e-10)/3.7 + 5.74/Re^0.9))²`"
(claim C1, spec §4.1). -/
def swameeJain (ops : Ops) (Re rr : ℚ) : ℚ :=
  (25 / 100) / (ops.log10 (max rr (1 / 10 ^ 10) / (37 / 10) + (574 / 100) / ops.rpow Re (9 / 10))) ^ 2

/-- The friction-factor contract exactly as claim C1 states it: 0 for
`Re ≤ 0`; `64/Re` for `0 < Re < 2300`; the linear interpolation between
`64/2300` and the Swamee–Jain value at `Re = 4000` for `2300 ≤ Re < 4000`;
the Swamee–Jain value for `Re ≥ 4000`. -/
def specFrictionFactor (ops : Ops) (Re rr : ℚ) : ℚ :=
  if Re ≤ 0 then 0
  else if Re < 2300 then 64 / Re
  else if Re < 4000 then
    64 / 2300 + ((Re - 2300) / (4000 - 2300)) * (swameeJain ops 4000 rr - 64 / 2300)
  else swameeJain ops Re rr

/-- "for every input on which … succeeds": `P` holds of the result whenever
the computation does not throw. -/
def ExceptHolds {ε α : Type} (e : Except ε α) (P : α → Prop) : Prop :=
  match e with
  | .ok a => P a
  | .error _ => True

theorem exceptHolds_iff {ε α : Type} (e : Except ε α) (P : α → Prop) :
    ExceptHolds e P ↔ ∀ a, e = .ok a → P a := by
  cases e <;> simp [ExceptHolds]

instance {ε α : Type} [DecidableEq ε] [DecidableEq α] : DecidableEq (Except ε α) := fun x y =>
  match x, y with
  | .error a, .error b => if h : a = b then .isTrue (by simp [h]) else .isFalse (by simp [h])
  | .error _, .ok _ => .isFalse (by simp)
  | .ok _, .error _ => .isFalse (by simp)
  | .ok a, .ok b => if h : a = b then .isTrue (by simp [h]) else .isFalse (by simp [h])

/-- An arbitrary interpretation of the uninterpreted transcendental
primitives, used to instantiate witnesses and counterexamples whose
evaluation path never consults them. -/
def stubOps : Ops := { log10 := fun _ => 0, rpow := fun _ _ => 0 }

/-! ## Claims C1, C8, C10 -/

/-- **C1.** For every Reynolds number Re and relative roughness rr,
`calculateFrictionFactor(Re, rr)` returns: 0 when Re ≤ 0; 64/Re when
0 < Re < 2300; for 2300 ≤ Re < 4000 the linear interpolation
`laminarF + ((Re − 2300)/(4000 − 2300))·(turbulentF − laminarF)` where
`laminarF = 64/2300` and `turbulentF` is the Swamee–Jain value at Re = 4000;
and for Re ≥ 4000 the Swamee–Jain value
`0.25 / (log10(max(rr, 1e-10)/3.7 + 5.74/Re^0.9))²`.  (Proved for every
interpretation of the transcendental primitives.) -/
theorem claim_C1_frictionFactor_piecewise (ops : Ops) (Re rr : ℚ) :
    WellHydraulics.calculateFrictionFactor ops Re rr = specFrictionFactor ops Re rr := by
  unfold WellHydraulics.calculateFrictionFactor specFrictionFactor
  unfold WellHydraulics.calculateTurbulentFriction swameeJain
  unfold LAMINAR_FLOW_LIMIT TURBULENT_FLOW_START
  by_cases h1 : Re ≤ 0
  · simp [h1]
  by_cases h2 : Re < 2300
  · simp [h1, h2]
  by_cases h3 : Re < 4000
  · have h4 : (2300 : ℚ) ≤ Re := le_of_not_lt h2
    rw [if_neg h1, if_neg h1, if_neg h2, if_neg h2, if_pos ⟨h4, h3⟩, if_pos h3]
    norm_num
  · rw [if_neg h1, if_neg h1, if_neg h2, if_neg h2,
      if_neg (fun hc : (2300 : ℚ) ≤ Re ∧ Re < 4000 => h3 hc.2), if_neg h3]
    norm_num

/-- **C8.** `calculateReynolds` never throws (it is a total function in this
embedding); it returns exactly 0 when μ = 0 or d = 0, and ρ·v·d/μ
otherwise. -/
theorem claim_C8_reynolds_contract (v d ρ μ : ℚ) :
    (μ = 0 ∨ d = 0 → WellHydraulics.calculateReynolds v d ρ μ = 0) ∧
    (μ ≠ 0 → d ≠ 0 → WellHydraulics.calculateReynolds v d ρ μ = ρ * v * d / μ) := by
  unfold WellHydraulics.calculateReynolds
  constructor
  · intro h; simp [h]
  · intro h1 h2; simp [h1, h2]

/-- Witness for C8 at concrete inputs: zero viscosity gives 0, and water-like
values give `ρ·v·d/μ = 200000` (the reference test's turbulent Reynolds
number). -/
theorem claim_C8_witness :
    WellHydraulics.calculateReynolds 2 (1 / 10) 1000 0 = 0 ∧
    WellHydraulics.calculateReynolds 2 (1 / 10) 1000 (1 / 1000) = 200000 := by
  constructor
  · exact (claim_C8_reynolds_contract 2 (1 / 10) 1000 0).1 (Or.inl rfl)
  · rw [(claim_C8_reynolds_contract 2 (1 / 10) 1000 (1 / 1000)).2 (by norm_num) (by norm_num)]
    norm_num

/-- The two loop bodies are definitionally equal. -/
theorem marchStep_eq (ops : Ops) (d v Q : ℚ) (prev : Option Segment) (i : Nat)
    (seg : Segment) (st : MarchState) :
    CalculatorService.marchStep ops d v Q prev i seg st = marchStep ops d v Q prev i seg st :=
  rfl

/-- The two loops agree on every segment list and state. -/
theorem marchSegs_eq (ops : Ops) (d v Q : ℚ) :
    ∀ segs prev k st, CalculatorService.marchSegs ops d v Q segs prev k st =
      marchSegs ops d v Q segs prev k st
  | [], _, _, _ => rfl
  | s :: rest, prev, k, st => by
    simp only [CalculatorService.marchSegs, marchSegs, marchStep_eq]
    cases marchStep ops d v Q prev k s st with
    | error e => rfl
    | ok st' => exact marchSegs_eq ops d v Q rest (some s) (k + 1) st'

/-- **C10.** `CalculatorService.calculateReynolds`, `calculateFrictionFactor`
and `calculatePressureDrop` return exactly the same results (and fail under
exactly the same conditions, the error value included) as the corresponding
`WellHydraulics` functions on every input: the two engine modules are
equivalent implementations. -/
theorem claim_C10_service_equals_engine :
    (∀ v d ρ μ : ℚ, CalculatorService.calculateReynolds v d ρ μ =
      WellHydraulics.calculateReynolds v d ρ μ) ∧
    (∀ (ops : Ops) (Re rr : ℚ), CalculatorService.calculateFrictionFactor ops Re rr =
      WellHydraulics.calculateFrictionFactor ops Re rr) ∧
    (∀ (ops : Ops) (p : CalculationParams), CalculatorService.calculatePressureDrop ops p =
      WellHydraulics.calculatePressureDrop ops p) := by
  refine ⟨fun _ _ _ _ => rfl, fun _ _ _ => rfl, fun ops p => ?_⟩
  simp only [CalculatorService.calculatePressureDrop, WellHydraulics.calculatePressureDrop,
    effectiveSegments, openHoleLength, totalSegmentLength, openHoleSeg, marchSegs_eq,
    initState, mkResults, mkMaxFlow, availP]

/-! ## Characterising the march

Per-position lists of the quantities the loop accumulates: each entry depends
only on the segment, its predecessor and its position, never on the running
state, so the final state is the initial state plus a sum/append. -/

/-- The friction+minor pressure drops of the segments, in order. -/
def pdList (ops : Ops) (density viscosity Q : ℚ) :
    Option Segment → Nat → List Segment → List ℚ
  | _, _, [] => []
  | prev, k, s :: rest =>
    (segFric ops density viscosity Q s + segMinor density Q prev k s) ::
      pdList ops density viscosity Q (some s) (k + 1) rest

/-- The net pressure changes of the segments, in order. -/
def netsList (ops : Ops) (density viscosity Q : ℚ) :
    Option Segment → Nat → List Segment → List ℚ
  | _, _, [] => []
  | prev, k, s :: rest =>
    segNet ops density viscosity Q prev k s ::
      netsList ops density viscosity Q (some s) (k + 1) rest

/-- The 1-based position of the first segment after which the running
pressure is negative (`none` when the pressure stays nonnegative throughout),
starting the march at pressure `P`. -/
def cavIdx? (ops : Ops) (density viscosity Q : ℚ) :
    ℚ → Option Segment → Nat → List Segment → Option Nat
  | _, _, _, [] => none
  | P, prev, k, s :: rest =>
    let P1 := P + segNet ops density viscosity Q prev k s
    if P1 < 0 then some (k + 1) else cavIdx? ops density viscosity Q P1 (some s) (k + 1) rest

/-- The bookkeeping fields of one reported segment: number, diameter, length,
depth-from, depth-to. -/
def sketch (sr : SegmentResult) : Nat × ℚ × ℚ × ℚ × ℚ :=
  (sr.segmentNumber, sr.diameter, sr.length, sr.depthFrom, sr.depthTo)

/-- The bookkeeping fields the march reports for a segment list, starting at
cumulative depth `c` and position `k`; segments with the sentinel id `-1` are
skipped. -/
def sketches : ℚ → Nat → List Segment → List (Nat × ℚ × ℚ × ℚ × ℚ)
  | _, _, [] => []
  | c, k, s :: rest =>
    (if s.id ≠ -1 then [(k + 1, s.diameter, s.length, c, c + s.length)] else []) ++
      sketches (c + s.length) (k + 1) rest

/-- A successful march step leaves the state in the explicitly given form. -/
theorem marchStep_ok_iff (ops : Ops) (d v Q : ℚ) (prev : Option Segment) (k : Nat)
    (s : Segment) (st st₁ : MarchState) :
    marchStep ops d v Q prev k s st = .ok st₁ ↔
      ¬ segD s ≤ 0 ∧ ¬ segA s ≤ 0 ∧
      st₁ = { currentPressure := st.currentPressure + segNet ops d v Q prev k s
              totalFrictionLoss := st.totalFrictionLoss + segFric ops d v Q s
              totalPressureDrop :=
                st.totalPressureDrop + (segFric ops d v Q s + segMinor d Q prev k s)
              segmentResults :=
                if s.id ≠ -1 then
                  st.segmentResults ++
                    [{ segmentNumber := k + 1
                       diameter := s.diameter
                       length := s.length
                       depthFrom := st.cumulativeDepth
                       depthTo := st.cumulativeDepth + s.length
                       velocity := segV Q s
                       reynoldsNumber := segRe d v Q s
                       flowRegime := segRegime d v Q s
                       frictionFactor := segF ops d v Q s
                       frictionLoss := segFric ops d v Q s / 1000
                       hydrostaticGain := d * GRAVITY * s.length / 1000
                       minorLoss := segMinor d Q prev k s / 1000
                       netPressureChange := segNet ops d v Q prev k s / 1000
                       inletPressure := st.currentPressure / 1000
                       outletPressure :=
                         (st.currentPressure + segNet ops d v Q prev k s) / 1000 }]
                else st.segmentResults
              warnings :=
                if st.currentPressure + segNet ops d v Q prev k s < 0 ∧ st.warnings = []
                then st.warnings ++ [k + 1] else st.warnings
              cumulativeDepth := st.cumulativeDepth + s.length
              maxVelocity :=
                if segV Q s > st.maxVelocity then segV Q s else st.maxVelocity
              maxVelocitySegment :=
                if segV Q s > st.maxVelocity then k + 1 else st.maxVelocitySegment
              frictionLosses :=
                st.frictionLosses ++ [(segFric ops d v Q s, segRegime d v Q s)] } := by
  unfold marchStep segNet
  by_cases h1 : segD s ≤ 0
  · simp [h1]
  by_cases h2 : segA s ≤ 0
  · simp [h1, h2]
  · rw [if_neg h1, if_neg h2]
    simp only [h1, h2, not_false_eq_true, true_and, Except.ok.injEq, eq_comm]

/-- A successful march adds, to each accumulator, the sum (or concatenation)
of the corresponding per-segment list. -/
theorem marchSegs_ok_totals (ops : Ops) (d v Q : ℚ) :
    ∀ (segs : List Segment) (prev : Option Segment) (k : Nat) (st st' : MarchState),
      marchSegs ops d v Q segs prev k st = .ok st' →
      st'.totalFrictionLoss = st.totalFrictionLoss + (segs.map (segFric ops d v Q)).sum ∧
      st'.totalPressureDrop = st.totalPressureDrop + (pdList ops d v Q prev k segs).sum ∧
      st'.currentPressure = st.currentPressure + (netsList ops d v Q prev k segs).sum ∧
      st'.cumulativeDepth = st.cumulativeDepth + totalSegmentLength segs ∧
      st'.frictionLosses =
        st.frictionLosses ++ segs.map (fun s => (segFric ops d v Q s, segRegime d v Q s)) := by
  intro segs
  induction segs with
  | nil =>
    intro prev k st st' h
    simp only [marchSegs] at h
    cases h
    simp [pdList, netsList, totalSegmentLength]
  | cons s rest ih =>
    intro prev k st st' h
    cases hstep : marchStep ops d v Q prev k s st with
    | error e => simp only [marchSegs, hstep] at h; cases h
    | ok st₁ =>
      simp only [marchSegs, hstep] at h
      obtain ⟨hd, ha, hst₁⟩ := (marchStep_ok_iff ops d v Q prev k s st st₁).mp hstep
      subst hst₁
      obtain ⟨e1, e2, e3, e4, e5⟩ := ih (some s) (k + 1) _ st' h
      refine ⟨?_, ?_, ?_, ?_, ?_⟩
      · rw [e1]; simp only [List.map_cons, List.sum_cons]; ring
      · rw [e2]; simp only [pdList, List.sum_cons]; ring
      · rw [e3]; simp only [netsList, List.sum_cons]; ring
      · rw [e4]; simp only [totalSegmentLength, List.map_cons, List.sum_cons]
        simp only [totalSegmentLength] at *; ring
      · rw [e5]; simp [List.append_assoc]

/-- A successful march records the warning of the first pressure-negative
position — and only that one — provided no warning is pending; a pending
warning is left untouched. -/
theorem marchSegs_ok_warnings (ops : Ops) (d v Q : ℚ) :
    ∀ (segs : List Segment) (prev : Option Segment) (k : Nat) (st st' : MarchState),
      marchSegs ops d v Q segs prev k st = .ok st' →
      st'.warnings =
        if st.warnings = [] then
          (cavIdx? ops d v Q st.currentPressure prev k segs).elim [] (fun i => [i])
        else st.warnings := by
  intro segs
  induction segs with
  | nil =>
    intro prev k st st' h
    simp only [marchSegs] at h
    cases h
    by_cases hw : st.warnings = [] <;> simp [hw, cavIdx?]
  | cons s rest ih =>
    intro prev k st st' h
    cases hstep : marchStep ops d v Q prev k s st with
    | error e => simp only [marchSegs, hstep] at h; cases h
    | ok st₁ =>
      simp only [marchSegs, hstep] at h
      obtain ⟨hd, ha, hst₁⟩ := (marchStep_ok_iff ops d v Q prev k s st st₁).mp hstep
      subst hst₁
      have e := ih (some s) (k + 1) _ st' h
      by_cases hw : st.warnings = []
      · by_cases hneg : st.currentPressure + segNet ops d v Q prev k s < 0
        · simp only [hw, hneg, and_self, if_pos, List.nil_append, true_and] at e
          rw [if_pos hw]
          simp only [cavIdx?, if_pos hneg, Option.elim]
          simpa [hw] using e
        · simp only [hw, hneg, false_and, if_neg, if_pos] at e
          rw [if_pos hw]
          simp only [cavIdx?, if_neg hneg]
          simpa [hw] using e
      · have hcond : ¬ (st.currentPressure + segNet ops d v Q prev k s < 0 ∧ st.warnings = []) :=
          fun hc => hw hc.2
        simp only [if_neg hcond] at e
        rw [if_neg hw]
        simpa [hw] using e

/-- A successful march appends exactly the bookkeeping sketches of the
processed segments to the reported list. -/
theorem marchSegs_ok_sketches (ops : Ops) (d v Q : ℚ) :
    ∀ (segs : List Segment) (prev : Option Segment) (k : Nat) (st st' : MarchState),
      marchSegs ops d v Q segs prev k st = .ok st' →
      st'.segmentResults.map sketch =
        st.segmentResults.map sketch ++ sketches st.cumulativeDepth k segs := by
  intro segs
  induction segs with
  | nil =>
    intro prev k st st' h
    simp only [marchSegs] at h
    cases h
    simp [sketches]
  | cons s rest ih =>
    intro prev k st st' h
    cases hstep : marchStep ops d v Q prev k s st with
    | error e => simp only [marchSegs, hstep] at h; cases h
    | ok st₁ =>
      simp only [marchSegs, hstep] at h
      obtain ⟨hd, ha, hst₁⟩ := (marchStep_ok_iff ops d v Q prev k s st st₁).mp hstep
      subst hst₁
      have e := ih (some s) (k + 1) _ st' h
      rw [e]
      by_cases hid : s.id ≠ -1 <;>
        simp [hid, sketches, sketch, List.append_assoc]

/-- At zero volumetric flow every reported velocity is zero. -/
theorem marchSegs_ok_vel0 (ops : Ops) (d v : ℚ) :
    ∀ (segs : List Segment) (prev : Option Segment) (k : Nat) (st st' : MarchState),
      marchSegs ops d v 0 segs prev k st = .ok st' →
      (∀ sr ∈ st.segmentResults, sr.velocity = 0) →
      ∀ sr ∈ st'.segmentResults, sr.velocity = 0 := by
  intro segs
  induction segs with
  | nil =>
    intro prev k st st' h hst
    simp only [marchSegs] at h
    cases h
    exact hst
  | cons s rest ih =>
    intro prev k st st' h hst
    cases hstep : marchStep ops d v 0 prev k s st with
    | error e => simp only [marchSegs, hstep] at h; cases h
    | ok st₁ =>
      simp only [marchSegs, hstep] at h
      obtain ⟨hd, ha, hst₁⟩ := (marchStep_ok_iff ops d v 0 prev k s st st₁).mp hstep
      subst hst₁
      refine ih (some s) (k + 1) _ st' h ?_
      by_cases hid : s.id ≠ -1
      · rw [if_pos hid]
        intro sr hsr
        rcases List.mem_append.mp hsr with hmem | hmem
        · exact hst sr hmem
        · simp only [List.mem_singleton] at hmem
          subst hmem
          simp [segV]
      · rw [if_neg hid]
        exact hst

/-- A successful march implies every processed segment has positive
diameter. -/
theorem marchSegs_ok_diam (ops : Ops) (d v Q : ℚ) :
    ∀ (segs : List Segment) (prev : Option Segment) (k : Nat) (st st' : MarchState),
      marchSegs ops d v Q segs prev k st = .ok st' →
      ∀ s ∈ segs, 0 < s.diameter := by
  intro segs
  induction segs with
  | nil => intro prev k st st' h s hs; cases hs
  | cons s rest ih =>
    intro prev k st st' h t ht
    cases hstep : marchStep ops d v Q prev k s st with
    | error e => simp only [marchSegs, hstep] at h; cases h
    | ok st₁ =>
      simp only [marchSegs, hstep] at h
      obtain ⟨hd, ha, hst₁⟩ := (marchStep_ok_iff ops d v Q prev k s st st₁).mp hstep
      rcases List.mem_cons.mp ht with hts | htr
      · subst hts
        have : ¬ t.diameter / 1000 ≤ 0 := by simpa [segD] using hd
        nlinarith [this]
      · exact ih (some s) (k + 1) _ st' h t htr

/-- Decomposition of a successful `calculatePressureDrop`: the march over the
effective segments succeeded and every output field is the announced
projection of its final state. -/
theorem calc_ok_elim {ops : Ops} {p : CalculationParams} {r : CalculationResults}
    (h : WellHydraulics.calculatePressureDrop ops p = .ok r) :
    ∃ st, marchSegs ops p.fluidDensity p.fluidViscosity (p.flowRate / SECONDS_PER_DAY)
        (effectiveSegments p) none 0 (initState p) = .ok st ∧
      r.segments = st.segmentResults ∧
      r.totalFrictionLoss = st.totalFrictionLoss / 1000 ∧
      r.totalPressureDrop = st.totalPressureDrop / 1000 ∧
      r.bottomPressure = st.currentPressure / 1000 ∧
      r.maxFlowRate = mkMaxFlow ops p st ∧
      r.actualFlowRate = p.flowRate ∧
      r.maxSegmentVelocity = st.maxVelocity ∧
      r.maxVelocitySegment = st.maxVelocitySegment ∧
      r.warnings = (if st.warnings ≠ [] then some st.warnings else none) := by
  unfold WellHydraulics.calculatePressureDrop at h
  by_cases hoh : openHoleLength p > 1 / 10 ∧ p.openHoleDiameter ≤ 0
  · rw [if_pos hoh] at h; cases h
  · rw [if_neg hoh] at h
    cases hm : marchSegs ops p.fluidDensity p.fluidViscosity (p.flowRate / SECONDS_PER_DAY)
        (effectiveSegments p) none 0 (initState p) with
    | error e => rw [hm] at h; cases h
    | ok st =>
      rw [hm] at h
      cases h
      exact ⟨st, rfl, rfl, rfl, rfl, rfl, rfl, rfl, rfl, rfl, rfl⟩

/-- "the effective segment with the single largest friction-pressure-loss
contribution has laminar regime" (claim C2; ties resolved to the earliest
such segment, as the source's `reduce` does). -/
def specDominantLaminar (ops : Ops) (p : CalculationParams) : Bool :=
  match firstMaxLoss ((effectiveSegments p).map (fun s =>
      (segFric ops p.fluidDensity p.fluidViscosity (p.flowRate / SECONDS_PER_DAY) s,
       segRegime p.fluidDensity p.fluidViscosity (p.flowRate / SECONDS_PER_DAY) s))) with
  | some m => m.2 = FlowRegime.Laminar
  | none => false

/-- **C2.** On every input on which `calculatePressureDrop` succeeds, the
returned `maxFlowRate` is: 0 when the available pressure
`injectionPressure·1000 + ρ·g·wellDepth − bottomholePressure·1000` is ≤ 0;
otherwise `Infinity` when the accumulated total pressure drop (friction +
minor, Pa) is ≤ 0 or the requested flow rate is 0; otherwise
`flowRate · (availablePressure/totalPressureDrop)^(1/flowExponent)` with flow
exponent 1 when the effective segment with the largest friction-loss
contribution is laminar and 2 otherwise. -/
theorem claim_C2_maxFlowRate (ops : Ops) (p : CalculationParams) :
    ExceptHolds (WellHydraulics.calculatePressureDrop ops p) (fun r =>
      r.maxFlowRate =
        if availP p ≤ 0 then MaxFlow.val 0
        else if r.totalPressureDrop * 1000 ≤ 0 ∨ p.flowRate = 0 then MaxFlow.inf
        else MaxFlow.val (p.flowRate *
          powR ops (availP p / (r.totalPressureDrop * 1000))
            (1 / (if specDominantLaminar ops p then 1 else 2)))) := by
  rw [exceptHolds_iff]
  intro r hr
  obtain ⟨st, hm, hsegs, hfl, htpd, hbp, hmf, -, -, -, hw⟩ := calc_ok_elim hr
  obtain ⟨-, -, -, -, hfls⟩ := marchSegs_ok_totals ops p.fluidDensity p.fluidViscosity
    (p.flowRate / SECONDS_PER_DAY) (effectiveSegments p) none 0 (initState p) st hm
  have htp : st.totalPressureDrop = r.totalPressureDrop * 1000 := by
    rw [htpd]; ring
  have hq : (p.flowRate / SECONDS_PER_DAY = 0) ↔ p.flowRate = 0 := by
    rw [div_eq_zero_iff]
    simp [SECONDS_PER_DAY]
  rw [hmf]
  unfold mkMaxFlow specDominantLaminar
  simp only [initState, List.nil_append] at hfls
  rw [htp, hfls]
  simp only [hq]

/-! ## Zero-flow facts -/

theorem segFric_zero (ops : Ops) (d v : ℚ) (s : Segment) : segFric ops d v 0 s = 0 := by
  simp [segFric, segHf, segV]

theorem segMinor_zero (d : ℚ) (prev : Option Segment) (k : Nat) (s : Segment) :
    segMinor d 0 prev k s = 0 := by
  cases prev <;> simp [segMinor, entryLossOf, transLossOf, segV]

theorem segNet_zero (ops : Ops) (d v : ℚ) (prev : Option Segment) (k : Nat) (s : Segment) :
    segNet ops d v 0 prev k s = d * GRAVITY * s.length := by
  simp [segNet, segFric_zero, segMinor_zero]

theorem netsList_zero (ops : Ops) (d v : ℚ) :
    ∀ (segs : List Segment) (prev : Option Segment) (k : Nat),
      netsList ops d v 0 prev k segs = segs.map (fun s => d * GRAVITY * s.length)
  | [], _, _ => rfl
  | s :: rest, prev, k => by
    simp [netsList, segNet_zero, netsList_zero ops d v rest]

theorem pdList_zero_sum (ops : Ops) (d v : ℚ) :
    ∀ (segs : List Segment) (prev : Option Segment) (k : Nat),
      (pdList ops d v 0 prev k segs).sum = 0
  | [], _, _ => rfl
  | s :: rest, prev, k => by
    simp [pdList, segFric_zero, segMinor_zero, pdList_zero_sum ops d v rest]

theorem cavIdx_zero_none (ops : Ops) (d v : ℚ) :
    ∀ (segs : List Segment) (prev : Option Segment) (k : Nat) (P : ℚ), 0 ≤ P →
      (∀ s ∈ segs, 0 ≤ d * GRAVITY * s.length) →
      cavIdx? ops d v 0 P prev k segs = none
  | [], _, _, _, _, _ => rfl
  | s :: rest, prev, k, P, hP, hseg => by
    have hP1 : 0 ≤ P + segNet ops d v 0 prev k s := by
      rw [segNet_zero]
      exact add_nonneg hP (hseg s (List.mem_cons_self s rest))
    simp only [cavIdx?, if_neg (not_lt.mpr hP1)]
    exact cavIdx_zero_none ops d v rest (some s) (k + 1) _ hP1
      (fun t ht => hseg t (List.mem_cons_of_mem s ht))

theorem effective_len_nonneg (p : CalculationParams) (h : ∀ s ∈ p.segments, 0 ≤ s.length) :
    ∀ s ∈ effectiveSegments p, 0 ≤ s.length := by
  intro s hs
  unfold effectiveSegments at hs
  by_cases hc : openHoleLength p > 1 / 10
  · rw [if_pos hc] at hs
    rcases List.mem_append.mp hs with hmem | hmem
    · exact h s hmem
    · simp only [List.mem_singleton] at hmem
      subst hmem
      exact le_max_left 0 _
  · rw [if_neg hc] at hs
    exact h s hs

/-! ## Claim C3 -/

/-- The reference zero-flow scenario of `calculatorService.test.ts` (and spec
§8): one 100 mm × 1000 m segment, zero flow, 5000 kPa injection against a
15000 kPa bottomhole target, water, 1000 m well, no open hole. -/
def zeroFlowParams : CalculationParams :=
  { segments := [{ id := 1, diameter := 100, length := 1000, roughness := 1 / 20 }]
    flowRate := 0
    injectionPressure := 5000
    bottomholePressure := 15000
    fluidDensity := 1000
    fluidViscosity := 1 / 1000
    wellDepth := 1000
    openHoleDiameter := 0 }

/-- **Counterexample to C3 as stated.**  The repository's own zero-flow test
scenario succeeds with `flowRate = 0` yet returns `maxFlowRate = 0`, not
`Infinity`: its available pressure `5·10⁶ + 9.81·10⁶ − 15·10⁶ = −1.9·10⁵ Pa`
is ≤ 0 and that branch takes priority (line 256).  The evaluation path never
consults the uninterpreted transcendental primitives, so the value is the
same under every interpretation. -/
theorem claim_C3_counterexample :
    zeroFlowParams.flowRate = 0 ∧
    (WellHydraulics.calculatePressureDrop stubOps zeroFlowParams).map (·.maxFlowRate) =
      .ok (MaxFlow.val 0) := by
  refine ⟨rfl, ?_⟩
  norm_num [WellHydraulics.calculatePressureDrop, marchSegs, marchStep, effectiveSegments,
    openHoleLength, totalSegmentLength, openHoleSeg, initState, mkResults, mkMaxFlow, availP,
    segD, segA, segV, segRe, segRR, segF, segHf, segFric, segMinor, entryLossOf, transLossOf,
      segNet, segRegime,
    WellHydraulics.calculateReynolds, WellHydraulics.calculateFrictionFactor,
    WellHydraulics.calculateTurbulentFriction, firstMaxLoss, powR, GRAVITY, PI,
    LAMINAR_FLOW_LIMIT, TURBULENT_FLOW_START, SECONDS_PER_DAY, ENTRY_LOSS_COEFFICIENT,
    DEFAULT_OPEN_HOLE_ROUGHNESS, stubOps, zeroFlowParams, Except.map]

/-- **C3 (amended).**  For every input with `flowRate = 0`, nonnegative
injection pressure, density and segment lengths, on which
`calculatePressureDrop` succeeds: every reported segment velocity is 0,
`totalFrictionLoss` is 0, the bottomhole pressure equals the injection
pressure plus the hydrostatic contribution `ρ·g·L` of every effective
segment converted from Pa to kPa, no cavitation warning is present, and
`maxFlowRate` is `Infinity` when the available pressure is positive — and 0
otherwise (the amendment the counterexample forces; the sign conditions are
needed because a negative injection pressure can reach the cavitation
warning even at zero flow). -/
theorem claim_C3_zero_flow (ops : Ops) (p : CalculationParams)
    (hq : p.flowRate = 0) (hinj : 0 ≤ p.injectionPressure) (hρ : 0 ≤ p.fluidDensity)
    (hlen : ∀ s ∈ p.segments, 0 ≤ s.length) :
    ExceptHolds (WellHydraulics.calculatePressureDrop ops p) (fun r =>
      (∀ sr ∈ r.segments, sr.velocity = 0) ∧
      r.totalFrictionLoss = 0 ∧
      r.bottomPressure = p.injectionPressure +
        ((effectiveSegments p).map (fun s => p.fluidDensity * GRAVITY * s.length)).sum / 1000 ∧
      r.warnings = none ∧
      r.maxFlowRate = (if 0 < availP p then MaxFlow.inf else MaxFlow.val 0)) := by
  rw [exceptHolds_iff]
  intro r hr
  obtain ⟨st, hm, hsegs, hfl, htpd, hbp, hmf, -, -, -, hw⟩ := calc_ok_elim hr
  rw [hq, zero_div] at hm
  obtain ⟨e1, -, e3, -, -⟩ := marchSegs_ok_totals ops p.fluidDensity p.fluidViscosity 0
    (effectiveSegments p) none 0 (initState p) st hm
  refine ⟨?_, ?_, ?_, ?_, ?_⟩
  · rw [hsegs]
    exact marchSegs_ok_vel0 ops p.fluidDensity p.fluidViscosity
      (effectiveSegments p) none 0 (initState p) st hm (by simp [initState])
  · rw [hfl, e1]
    have hz : ((effectiveSegments p).map (segFric ops p.fluidDensity p.fluidViscosity 0)).sum = 0 := by
      refine List.sum_eq_zero ?_
      intro x hx
      obtain ⟨s, -, hxe⟩ := List.mem_map.mp hx
      rw [← hxe, segFric_zero]
    rw [hz]
    simp [initState]
  · rw [hbp, e3, netsList_zero]
    simp only [initState]
    ring
  · rw [hw]
    have hwm := marchSegs_ok_warnings ops p.fluidDensity p.fluidViscosity 0
      (effectiveSegments p) none 0 (initState p) st hm
    rw [cavIdx_zero_none ops p.fluidDensity p.fluidViscosity (effectiveSegments p) none 0
        (initState p).currentPressure
        (by simp only [initState]; positivity)
        (fun s hs => by
          have := effective_len_nonneg p hlen s hs
          have hg : (0 : ℚ) ≤ GRAVITY := by norm_num [GRAVITY]
          exact mul_nonneg (mul_nonneg hρ hg) this)] at hwm
    simp only [initState, if_pos rfl, Option.elim] at hwm
    simp [hwm]
  · rw [hmf]
    simp only [mkMaxFlow]
    by_cases hav : availP p ≤ 0
    · rw [if_pos hav, if_neg (not_lt.mpr hav)]
    · rw [if_neg hav, if_pos (Or.inr (by rw [hq, zero_div])), if_pos (lt_of_not_le hav)]

/-- The zero-flow scenario with a 0 kPa bottomhole target, so the available
pressure is positive. -/
def zeroFlowParamsPos : CalculationParams :=
  { segments := [{ id := 1, diameter := 100, length := 1000, roughness := 1 / 20 }]
    flowRate := 0
    injectionPressure := 5000
    bottomholePressure := 0
    fluidDensity := 1000
    fluidViscosity := 1 / 1000
    wellDepth := 1000
    openHoleDiameter := 0 }

/-- Witness for C3 (amended): the hypotheses hold at `zeroFlowParamsPos`, the
calculation succeeds there (the warnings field concretely evaluates to
`none`), and the theorem applies. -/
theorem claim_C3_witness :
    (WellHydraulics.calculatePressureDrop stubOps zeroFlowParamsPos).map (·.warnings) =
      .ok none ∧
    ExceptHolds (WellHydraulics.calculatePressureDrop stubOps zeroFlowParamsPos) (fun r =>
      (∀ sr ∈ r.segments, sr.velocity = 0) ∧
      r.totalFrictionLoss = 0 ∧
      r.bottomPressure = zeroFlowParamsPos.injectionPressure +
        ((effectiveSegments zeroFlowParamsPos).map
          (fun s => zeroFlowParamsPos.fluidDensity * GRAVITY * s.length)).sum / 1000 ∧
      r.warnings = none ∧
      r.maxFlowRate = (if 0 < availP zeroFlowParamsPos then MaxFlow.inf else MaxFlow.val 0)) := by
  constructor
  · norm_num [WellHydraulics.calculatePressureDrop, marchSegs, marchStep, effectiveSegments,
      openHoleLength, totalSegmentLength, openHoleSeg, initState, mkResults, mkMaxFlow, availP,
      segD, segA, segV, segRe, segRR, segF, segHf, segFric, segMinor, entryLossOf, transLossOf,
      segNet, segRegime,
      WellHydraulics.calculateReynolds, WellHydraulics.calculateFrictionFactor,
      WellHydraulics.calculateTurbulentFriction, firstMaxLoss, powR, GRAVITY, PI,
      LAMINAR_FLOW_LIMIT, TURBULENT_FLOW_START, SECONDS_PER_DAY, ENTRY_LOSS_COEFFICIENT,
      DEFAULT_OPEN_HOLE_ROUGHNESS, stubOps, zeroFlowParamsPos, Except.map]
  · exact claim_C3_zero_flow stubOps zeroFlowParamsPos rfl (by norm_num [zeroFlowParamsPos])
      (by norm_num [zeroFlowParamsPos])
      (by
        intro s hs
        simp only [zeroFlowParamsPos, List.mem_singleton] at hs
        subst hs
        norm_num)

/-- A slow laminar scenario: 1 m³/day of a viscous fluid (μ = 1 Pa·s) through
one 100 mm × 100 m segment. -/
def lamFlowParams : CalculationParams :=
  { segments := [{ id := 1, diameter := 100, length := 100, roughness := 0 }]
    flowRate := 1
    injectionPressure := 5000
    bottomholePressure := 0
    fluidDensity := 1000
    fluidViscosity := 1
    wellDepth := 100
    openHoleDiameter := 0 }

/-- Witness for C2: the calculation succeeds at `lamFlowParams` (the warnings
field concretely evaluates to `none`) and the theorem applies there. -/
theorem claim_C2_witness :
    (WellHydraulics.calculatePressureDrop stubOps lamFlowParams).map (·.warnings) = .ok none ∧
    ExceptHolds (WellHydraulics.calculatePressureDrop stubOps lamFlowParams) (fun r =>
      r.maxFlowRate =
        if availP lamFlowParams ≤ 0 then MaxFlow.val 0
        else if r.totalPressureDrop * 1000 ≤ 0 ∨ lamFlowParams.flowRate = 0 then MaxFlow.inf
        else MaxFlow.val (lamFlowParams.flowRate *
          powR stubOps (availP lamFlowParams / (r.totalPressureDrop * 1000))
            (1 / (if specDominantLaminar stubOps lamFlowParams then 1 else 2)))) := by
  constructor
  · norm_num [WellHydraulics.calculatePressureDrop, marchSegs, marchStep, effectiveSegments,
      openHoleLength, totalSegmentLength, openHoleSeg, initState, mkResults, mkMaxFlow, availP,
      segD, segA, segV, segRe, segRR, segF, segHf, segFric, segMinor, entryLossOf, transLossOf,
      segNet, segRegime,
      WellHydraulics.calculateReynolds, WellHydraulics.calculateFrictionFactor,
      WellHydraulics.calculateTurbulentFriction, firstMaxLoss, powR, GRAVITY, PI,
      LAMINAR_FLOW_LIMIT, TURBULENT_FLOW_START, SECONDS_PER_DAY, ENTRY_LOSS_COEFFICIENT,
      DEFAULT_OPEN_HOLE_ROUGHNESS, stubOps, lamFlowParams, Except.map]
  · exact claim_C2_maxFlowRate stubOps lamFlowParams

/-! ## Claim C4 -/

theorem sketches_append (xs : List Segment) :
    ∀ (ys : List Segment) (c : ℚ) (k : Nat),
      sketches c k (xs ++ ys) =
        sketches c k xs ++ sketches (c + totalSegmentLength xs) (k + xs.length) ys := by
  induction xs with
  | nil =>
    intro ys c k
    simp [sketches, totalSegmentLength]
  | cons s rest ih =>
    intro ys c k
    simp only [List.cons_append, sketches, List.append_eq]
    rw [ih ys (c + s.length) (k + 1)]
    simp only [totalSegmentLength, List.map_cons, List.sum_cons, List.length_cons,
      List.append_assoc, add_assoc, add_comm, add_left_comm]

theorem sketches_num_le :
    ∀ (segs : List Segment) (c : ℚ) (k : Nat) (x : Nat × ℚ × ℚ × ℚ × ℚ),
      x ∈ sketches c k segs → x.1 ≤ k + segs.length := by
  intro segs
  induction segs with
  | nil => intro c k x hx; cases hx
  | cons s rest ih =>
    intro c k x hx
    simp only [sketches] at hx
    rcases List.mem_append.mp hx with hmem | hmem
    · by_cases hid : s.id ≠ -1
      · rw [if_pos hid] at hmem
        simp only [List.mem_singleton] at hmem
        subst hmem
        simp
      · rw [if_neg hid] at hmem
        cases hmem
    · have := ih (c + s.length) (k + 1) x hmem
      simp only [List.length_cons]
      omega

/-- **C4.** `calculatePressureDrop` appends exactly one synthetic open-hole
segment (residual length, given open-hole diameter, fixed default roughness)
iff `wellDepth − Σ segment lengths > 0.1 m`; when that holds and
`openHoleDiameter ≤ 0` the calculation fails with the open-hole configuration
error (an `Except.error`, hence no partial result); and on success the totals
are the sums over the *effective* list (the synthetic segment included) while
every reported segment number stays within the user segments (the synthetic
segment never appears in the output). -/
theorem claim_C4_open_hole (ops : Ops) (p : CalculationParams) :
    (effectiveSegments p =
        p.segments ++
          [{ id := -1, diameter := p.openHoleDiameter,
             length := p.wellDepth - totalSegmentLength p.segments,
             roughness := DEFAULT_OPEN_HOLE_ROUGHNESS }] ↔
      1 / 10 < p.wellDepth - totalSegmentLength p.segments) ∧
    (¬ 1 / 10 < p.wellDepth - totalSegmentLength p.segments →
      effectiveSegments p = p.segments) ∧
    (1 / 10 < p.wellDepth - totalSegmentLength p.segments → p.openHoleDiameter ≤ 0 →
      WellHydraulics.calculatePressureDrop ops p = .error .openHoleDiameterRequired) ∧
    ExceptHolds (WellHydraulics.calculatePressureDrop ops p) (fun r =>
      r.totalFrictionLoss * 1000 =
        ((effectiveSegments p).map
          (segFric ops p.fluidDensity p.fluidViscosity (p.flowRate / SECONDS_PER_DAY))).sum ∧
      ∀ sr ∈ r.segments, sr.segmentNumber ≤ p.segments.length) := by
  have hcond : openHoleLength p > 1 / 10 ↔ 1 / 10 < p.wellDepth - totalSegmentLength p.segments := by
    unfold openHoleLength
    rw [gt_iff_lt, lt_max_iff]
    constructor
    · rintro (h | h)
      · norm_num at h
      · exact h
    · exact Or.inr
  refine ⟨?_, ?_, ?_, ?_⟩
  · constructor
    · intro he
      by_contra hc
      have hne : effectiveSegments p = p.segments := by
        unfold effectiveSegments
        rw [if_neg (fun hh => hc (hcond.mp hh))]
      rw [hne] at he
      have := congrArg List.length he
      simp at this
    · intro hc
      unfold effectiveSegments openHoleSeg
      rw [if_pos (hcond.mpr hc)]
      have : openHoleLength p = p.wellDepth - totalSegmentLength p.segments := by
        unfold openHoleLength
        exact max_eq_right (by linarith)
      rw [this]
  · intro hc
    unfold effectiveSegments
    rw [if_neg (fun hh => hc (hcond.mp hh))]
  · intro hc hd
    unfold WellHydraulics.calculatePressureDrop
    rw [if_pos ⟨hcond.mpr hc, hd⟩]
  · rw [exceptHolds_iff]
    intro r hr
    obtain ⟨st, hm, hsegs, hfl, -, -, -, -, -, -, -⟩ := calc_ok_elim hr
    obtain ⟨e1, -, -, -, -⟩ := marchSegs_ok_totals ops p.fluidDensity p.fluidViscosity
      (p.flowRate / SECONDS_PER_DAY) (effectiveSegments p) none 0 (initState p) st hm
    constructor
    · rw [hfl, e1]
      simp only [initState]
      ring
    · intro sr hsr
      have hsk := marchSegs_ok_sketches ops p.fluidDensity p.fluidViscosity
        (p.flowRate / SECONDS_PER_DAY) (effectiveSegments p) none 0 (initState p) st hm
      simp only [initState, List.map_nil, List.nil_append] at hsk
      have hmem : sketch sr ∈ sketches (0 : ℚ) 0 (effectiveSegments p) := by
        rw [← hsk, ← hsegs]
        exact List.mem_map_of_mem sketch hsr
      have hnum : (sketch sr).1 ≤ p.segments.length := by
        unfold effectiveSegments at hmem
        by_cases hc : openHoleLength p > 1 / 10
        · rw [if_pos hc] at hmem
          rw [sketches_append] at hmem
          rcases List.mem_append.mp hmem with hmem1 | hmem1
          · simpa using sketches_num_le p.segments 0 0 _ hmem1
          · simp only [sketches, openHoleSeg] at hmem1
            norm_num at hmem1
        · rw [if_neg hc] at hmem
          simpa using sketches_num_le p.segments 0 0 _ hmem
      simpa [sketch] using hnum

/-- A 200 m well with only 100 m of tubing and no open-hole diameter
supplied: the configuration the missing-open-hole scenario of spec §8
describes. -/
def missingOpenHole : CalculationParams :=
  { segments := [{ id := 1, diameter := 100, length := 100, roughness := 0 }]
    flowRate := 0
    injectionPressure := 0
    bottomholePressure := 0
    fluidDensity := 0
    fluidViscosity := 0
    wellDepth := 200
    openHoleDiameter := 0 }

/-- Witness for C4: at `missingOpenHole` the open-hole condition holds, the
supplied diameter is ≤ 0, and the theorem yields the configuration error. -/
theorem claim_C4_witness :
    (1 / 10 : ℚ) < missingOpenHole.wellDepth - totalSegmentLength missingOpenHole.segments ∧
    missingOpenHole.openHoleDiameter ≤ 0 ∧
    WellHydraulics.calculatePressureDrop stubOps missingOpenHole =
      .error .openHoleDiameterRequired := by
  refine ⟨by norm_num [missingOpenHole, totalSegmentLength], by norm_num [missingOpenHole], ?_⟩
  exact (claim_C4_open_hole stubOps missingOpenHole).2.2.1
    (by norm_num [missingOpenHole, totalSegmentLength])
    (by norm_num [missingOpenHole])

/-! ## Claims C5 and C6 -/

/-- On success, the output's bookkeeping sketches are exactly those of the
*user* segment list: the synthetic open-hole segment (id −1) contributes
nothing. -/
theorem calc_ok_sketches {ops : Ops} {p : CalculationParams} {r : CalculationResults}
    (h : WellHydraulics.calculatePressureDrop ops p = .ok r) :
    r.segments.map sketch = sketches 0 0 p.segments := by
  obtain ⟨st, hm, hsegs, -, -, -, -, -, -, -, -⟩ := calc_ok_elim h
  have hsk := marchSegs_ok_sketches ops p.fluidDensity p.fluidViscosity
    (p.flowRate / SECONDS_PER_DAY) (effectiveSegments p) none 0 (initState p) st hm
  simp only [initState, List.map_nil, List.nil_append] at hsk
  rw [hsegs, hsk]
  unfold effectiveSegments
  by_cases hc : openHoleLength p > 1 / 10
  · rw [if_pos hc, sketches_append]
    simp [sketches, openHoleSeg]
  · rw [if_neg hc]

/-- Explicit form of `sketches` when no user segment carries the sentinel id:
one entry per segment, in order, with 1-based numbers and prefix-sum
depths. -/
theorem sketches_get :
    ∀ (segs : List Segment), (∀ s ∈ segs, s.id ≠ -1) → ∀ (c : ℚ) (k : Nat),
      (sketches c k segs).length = segs.length ∧
      ∀ (i : Nat) (hi : i < segs.length) (hi2 : i < (sketches c k segs).length),
        (sketches c k segs)[i] =
          (k + i + 1, segs[i].diameter, segs[i].length,
           c + totalSegmentLength (segs.take i), c + totalSegmentLength (segs.take (i + 1))) := by
  intro segs
  induction segs with
  | nil =>
    intro _ c k
    exact ⟨rfl, fun i hi _ => absurd hi (Nat.not_lt_zero i)⟩
  | cons s rest ih =>
    intro h c k
    have hs : s.id ≠ -1 := h s (List.mem_cons_self s rest)
    obtain ⟨ihlen, ihget⟩ :=
      ih (fun t ht => h t (List.mem_cons_of_mem s ht)) (c + s.length) (k + 1)
    have hunf : sketches c k (s :: rest) =
        (k + 1, s.diameter, s.length, c, c + s.length) ::
          sketches (c + s.length) (k + 1) rest := by
      simp only [sketches, if_pos hs, List.singleton_append]
    constructor
    · rw [hunf]
      simp [ihlen]
    · intro i hi hi2
      match i with
      | 0 =>
        simp only [hunf, List.getElem_cons_zero, List.take_zero, totalSegmentLength,
          List.map_nil, List.sum_nil, List.take_succ_cons, List.map_cons, List.sum_cons]
        simp
      | Nat.succ j =>
        have hj : j < rest.length := by simpa using hi
        have hj2 : j < (sketches (c + s.length) (k + 1) rest).length := by
          rw [ihlen]; exact hj
        simp only [hunf, List.getElem_cons_succ]
        rw [ihget j hj hj2]
        simp only [List.take_succ_cons, totalSegmentLength, List.map_cons, List.sum_cons,
          List.getElem_cons_succ]
        refine congrArg₂ Prod.mk (by omega) (congrArg₂ Prod.mk rfl (congrArg₂ Prod.mk rfl
          (congrArg₂ Prod.mk (by ring) (by ring))))

/-- A single user segment carrying the reserved sentinel id −1. -/
def sentinelParams : CalculationParams :=
  { segments := [{ id := -1, diameter := 100, length := 10, roughness := 0 }]
    flowRate := 0
    injectionPressure := 0
    bottomholePressure := 0
    fluidDensity := 0
    fluidViscosity := 0
    wellDepth := 10
    openHoleDiameter := 0 }

/-- **Counterexample to C5 as stated.**  A user segment whose id is −1 is
filtered out of the output by the sentinel test of line 219: the calculation
succeeds with 1 input segment but 0 output segments, so the count invariant
does not hold "for all user-supplied segment id values".  (The evaluation
path never consults the uninterpreted transcendental primitives.) -/
theorem claim_C5_counterexample :
    sentinelParams.segments.length = 1 ∧
    (WellHydraulics.calculatePressureDrop stubOps sentinelParams).map
      (fun r => r.segments.length) = .ok 0 := by
  refine ⟨rfl, ?_⟩
  norm_num [WellHydraulics.calculatePressureDrop, marchSegs, marchStep, effectiveSegments,
    openHoleLength, totalSegmentLength, openHoleSeg, initState, mkResults, mkMaxFlow, availP,
    segD, segA, segV, segRe, segRR, segF, segHf, segFric, segMinor, entryLossOf, transLossOf,
      segNet, segRegime,
    WellHydraulics.calculateReynolds, WellHydraulics.calculateFrictionFactor,
    WellHydraulics.calculateTurbulentFriction, firstMaxLoss, powR, GRAVITY, PI,
    LAMINAR_FLOW_LIMIT, TURBULENT_FLOW_START, SECONDS_PER_DAY, ENTRY_LOSS_COEFFICIENT,
    DEFAULT_OPEN_HOLE_ROUGHNESS, stubOps, sentinelParams, Except.map]

/-- **C5 (amended).**  Provided no user-supplied segment id equals the
reserved sentinel −1 (the restriction the counterexample forces, and the one
the spec's "must never collide" clause already demands), on every successful
run the output has exactly one `SegmentResult` per input segment, in input
order: entry `i` carries segment number `i+1` and the diameter and length of
input segment `i`. -/
theorem claim_C5_output_matches_input (ops : Ops) (p : CalculationParams)
    (hid : ∀ s ∈ p.segments, s.id ≠ -1) :
    ExceptHolds (WellHydraulics.calculatePressureDrop ops p) (fun r =>
      r.segments.length = p.segments.length ∧
      ∀ (i : Nat) (hi : i < p.segments.length) (hi2 : i < r.segments.length),
        (r.segments[i]).segmentNumber = i + 1 ∧
        (r.segments[i]).diameter = p.segments[i].diameter ∧
        (r.segments[i]).length = p.segments[i].length) := by
  rw [exceptHolds_iff]
  intro r hr
  have hms := calc_ok_sketches hr
  obtain ⟨hlen, hget⟩ := sketches_get p.segments hid 0 0
  have hrlen : r.segments.length = p.segments.length := by
    have h1 := congrArg List.length hms
    simpa [hlen] using h1
  refine ⟨hrlen, ?_⟩
  intro i hi hi2
  have hi3 : i < (r.segments.map sketch).length := by simpa using hi2
  have hi4 : i < (sketches (0 : ℚ) 0 p.segments).length := by rw [hlen]; exact hi
  have hgeteq : (r.segments.map sketch)[i] = (sketches (0 : ℚ) 0 p.segments)[i] :=
    List.getElem_of_eq hms hi3
  rw [List.getElem_map, hget i hi hi4] at hgeteq
  have h1 := congrArg (fun x => x.1) hgeteq
  have h2 := congrArg (fun x => x.2.1) hgeteq
  have h3 := congrArg (fun x => x.2.2.1) hgeteq
  simp only [sketch] at h1 h2 h3
  exact ⟨by simpa using h1, h2, h3⟩

/-- Witness for C5 (amended): two ordinary segments, ids 1 and 2; the output
pairs (segmentNumber, diameter) concretely evaluate to the inputs'. -/
def twoSegParams : CalculationParams :=
  { segments := [{ id := 1, diameter := 100, length := 50, roughness := 0 },
                 { id := 2, diameter := 80, length := 50, roughness := 0 }]
    flowRate := 0
    injectionPressure := 1000
    bottomholePressure := 0
    fluidDensity := 1000
    fluidViscosity := 1 / 1000
    wellDepth := 100
    openHoleDiameter := 0 }

theorem claim_C5_witness :
    (WellHydraulics.calculatePressureDrop stubOps twoSegParams).map
      (fun r => r.segments.map (fun sr => (sr.segmentNumber, sr.diameter))) =
        .ok [(1, 100), (2, 80)] ∧
    ExceptHolds (WellHydraulics.calculatePressureDrop stubOps twoSegParams) (fun r =>
      r.segments.length = twoSegParams.segments.length ∧
      ∀ (i : Nat) (hi : i < twoSegParams.segments.length) (hi2 : i < r.segments.length),
        (r.segments[i]).segmentNumber = i + 1 ∧
        (r.segments[i]).diameter = twoSegParams.segments[i].diameter ∧
        (r.segments[i]).length = twoSegParams.segments[i].length) := by
  constructor
  · norm_num [WellHydraulics.calculatePressureDrop, marchSegs, marchStep, effectiveSegments,
      openHoleLength, totalSegmentLength, openHoleSeg, initState, mkResults, mkMaxFlow, availP,
      segD, segA, segV, segRe, segRR, segF, segHf, segFric, segMinor, entryLossOf, transLossOf,
      segNet, segRegime,
      WellHydraulics.calculateReynolds, WellHydraulics.calculateFrictionFactor,
      WellHydraulics.calculateTurbulentFriction, firstMaxLoss, powR, GRAVITY, PI,
      LAMINAR_FLOW_LIMIT, TURBULENT_FLOW_START, SECONDS_PER_DAY, ENTRY_LOSS_COEFFICIENT,
      DEFAULT_OPEN_HOLE_ROUGHNESS, stubOps, twoSegParams, Except.map]
  · exact claim_C5_output_matches_input stubOps twoSegParams
      (by
        intro s hs
        simp only [twoSegParams, List.mem_cons, List.mem_singleton] at hs
        rcases hs with hs | hs | hs
        · subst hs; norm_num
        · subst hs; norm_num
        · cases hs)

/-- 200 m of tubing in a well declared 100 m deep. -/
def deepTubingParams : CalculationParams :=
  { segments := [{ id := 1, diameter := 100, length := 200, roughness := 0 }]
    flowRate := 0
    injectionPressure := 0
    bottomholePressure := 0
    fluidDensity := 0
    fluidViscosity := 0
    wellDepth := 100
    openHoleDiameter := 0 }

/-- **Counterexample to C6 as stated.**  When the declared well depth is
smaller than the total tubing length the engine still succeeds (nothing
rejects it, and no open hole is added since `max(0, 100−200) = 0`), and the
last real segment's depth-to is 200 m > 100 m = well depth.  (The evaluation
path never consults the uninterpreted transcendental primitives.) -/
theorem claim_C6_counterexample :
    (WellHydraulics.calculatePressureDrop stubOps deepTubingParams).map
      (fun r => r.segments.map (fun sr => (sr.depthFrom, sr.depthTo))) = .ok [(0, 200)] ∧
    ¬ ((200 : ℚ) ≤ deepTubingParams.wellDepth) := by
  constructor
  · norm_num [WellHydraulics.calculatePressureDrop, marchSegs, marchStep, effectiveSegments,
      openHoleLength, totalSegmentLength, openHoleSeg, initState, mkResults, mkMaxFlow, availP,
      segD, segA, segV, segRe, segRR, segF, segHf, segFric, segMinor, entryLossOf, transLossOf,
      segNet, segRegime,
      WellHydraulics.calculateReynolds, WellHydraulics.calculateFrictionFactor,
      WellHydraulics.calculateTurbulentFriction, firstMaxLoss, powR, GRAVITY, PI,
      LAMINAR_FLOW_LIMIT, TURBULENT_FLOW_START, SECONDS_PER_DAY, ENTRY_LOSS_COEFFICIENT,
      DEFAULT_OPEN_HOLE_ROUGHNESS, stubOps, deepTubingParams, Except.map]
  · norm_num [deepTubingParams]

/-- **C6 (amended).**  Provided no user segment id is the sentinel −1 and the
total tubing length does not exceed the well depth (the restrictions the
counterexamples force — the source accepts both degenerate inputs), on every
successful run: the first output segment's depth-from is 0, each segment's
depth-to equals the next one's depth-from, and the last real segment's
depth-to is ≤ the well depth. -/
theorem claim_C6_depth_bookkeeping (ops : Ops) (p : CalculationParams)
    (hid : ∀ s ∈ p.segments, s.id ≠ -1)
    (hdepth : totalSegmentLength p.segments ≤ p.wellDepth) :
    ExceptHolds (WellHydraulics.calculatePressureDrop ops p) (fun r =>
      (∀ h0 : 0 < r.segments.length, (r.segments[0]).depthFrom = 0) ∧
      (∀ (i : Nat) (hi : i + 1 < r.segments.length),
        (r.segments[i]).depthTo = (r.segments[i + 1]).depthFrom) ∧
      (∀ (i : Nat) (hi : i < r.segments.length), i + 1 = r.segments.length →
        (r.segments[i]).depthTo ≤ p.wellDepth)) := by
  rw [exceptHolds_iff]
  intro r hr
  have hms := calc_ok_sketches hr
  obtain ⟨hlen, hget⟩ := sketches_get p.segments hid 0 0
  have hrlen : r.segments.length = p.segments.length := by
    have h1 := congrArg List.length hms
    simpa [hlen] using h1
  have hfield : ∀ (i : Nat) (hi2 : i < r.segments.length),
      (r.segments[i]).depthFrom = totalSegmentLength (p.segments.take i) ∧
      (r.segments[i]).depthTo = totalSegmentLength (p.segments.take (i + 1)) := by
    intro i hi2
    have hi : i < p.segments.length := hrlen ▸ hi2
    have hi3 : i < (r.segments.map sketch).length := by simpa using hi2
    have hi4 : i < (sketches (0 : ℚ) 0 p.segments).length := by rw [hlen]; exact hi
    have hgeteq : (r.segments.map sketch)[i] = (sketches (0 : ℚ) 0 p.segments)[i] :=
      List.getElem_of_eq hms hi3
    rw [List.getElem_map, hget i hi hi4] at hgeteq
    have h4 := congrArg (fun x => x.2.2.2.1) hgeteq
    have h5 := congrArg (fun x => x.2.2.2.2) hgeteq
    simp only [sketch] at h4 h5
    constructor
    · rw [h4]; ring
    · rw [h5]; ring
  refine ⟨?_, ?_, ?_⟩
  · intro h0
    rw [(hfield 0 h0).1]
    simp [totalSegmentLength]
  · intro i hi
    rw [(hfield i (by omega)).2, (hfield (i + 1) hi).1]
  · intro i hi hlast
    rw [(hfield i hi).2]
    have htake : p.segments.take (i + 1) = p.segments := by
      apply List.take_of_length_le
      omega
    rw [htake]
    exact hdepth

/-- Witness for C6 (amended): the two-segment scenario's depth pairs
concretely evaluate to `(0,50)` and `(50,100)` in a 100 m well. -/
theorem claim_C6_witness :
    (WellHydraulics.calculatePressureDrop stubOps twoSegParams).map
      (fun r => r.segments.map (fun sr => (sr.depthFrom, sr.depthTo))) =
        .ok [(0, 50), (50, 100)] ∧
    ExceptHolds (WellHydraulics.calculatePressureDrop stubOps twoSegParams) (fun r =>
      (∀ h0 : 0 < r.segments.length, (r.segments[0]).depthFrom = 0) ∧
      (∀ (i : Nat) (hi : i + 1 < r.segments.length),
        (r.segments[i]).depthTo = (r.segments[i + 1]).depthFrom) ∧
      (∀ (i : Nat) (hi : i < r.segments.length), i + 1 = r.segments.length →
        (r.segments[i]).depthTo ≤ twoSegParams.wellDepth)) := by
  constructor
  · norm_num [WellHydraulics.calculatePressureDrop, marchSegs, marchStep, effectiveSegments,
      openHoleLength, totalSegmentLength, openHoleSeg, initState, mkResults, mkMaxFlow, availP,
      segD, segA, segV, segRe, segRR, segF, segHf, segFric, segMinor, entryLossOf, transLossOf,
      segNet, segRegime,
      WellHydraulics.calculateReynolds, WellHydraulics.calculateFrictionFactor,
      WellHydraulics.calculateTurbulentFriction, firstMaxLoss, powR, GRAVITY, PI,
      LAMINAR_FLOW_LIMIT, TURBULENT_FLOW_START, SECONDS_PER_DAY, ENTRY_LOSS_COEFFICIENT,
      DEFAULT_OPEN_HOLE_ROUGHNESS, stubOps, twoSegParams, Except.map]
  · exact claim_C6_depth_bookkeeping stubOps twoSegParams
      (by
        intro s hs
        simp only [twoSegParams, List.mem_cons, List.mem_singleton] at hs
        rcases hs with hs | hs | hs
        · subst hs; norm_num
        · subst hs; norm_num
        · cases hs)
      (by norm_num [twoSegParams, totalSegmentLength])

/-! ## Claim C7 -/

theorem netsList_length (ops : Ops) (d v Q : ℚ) :
    ∀ (segs : List Segment) (prev : Option Segment) (k : Nat),
      (netsList ops d v Q prev k segs).length = segs.length
  | [], _, _ => rfl
  | s :: rest, prev, k => by
    simp [netsList, netsList_length ops d v Q rest]

/-- `cavIdx?` against the running-pressure prefix sums: `none` means the
pressure after every segment is nonnegative; `some n` means `n` is the
1-based position of the first segment after which it is negative. -/
theorem cavIdx_spec (ops : Ops) (d v Q : ℚ) :
    ∀ (segs : List Segment) (prev : Option Segment) (k : Nat) (P : ℚ),
      (cavIdx? ops d v Q P prev k segs = none →
        ∀ j, j < segs.length →
          0 ≤ P + ((netsList ops d v Q prev k segs).take (j + 1)).sum) ∧
      (∀ n, cavIdx? ops d v Q P prev k segs = some n →
        ∃ j, j < segs.length ∧ n = k + j + 1 ∧
          P + ((netsList ops d v Q prev k segs).take (j + 1)).sum < 0 ∧
          ∀ i, i < j → 0 ≤ P + ((netsList ops d v Q prev k segs).take (i + 1)).sum) := by
  intro segs
  induction segs with
  | nil =>
    intro prev k P
    exact ⟨fun _ j hj => absurd hj (Nat.not_lt_zero j),
      fun n hn => by simp [cavIdx?] at hn⟩
  | cons s rest ih =>
    intro prev k P
    have hsum : ∀ i : Nat,
        ((netsList ops d v Q prev k (s :: rest)).take (i + 1)).sum =
          segNet ops d v Q prev k s +
            ((netsList ops d v Q (some s) (k + 1) rest).take i).sum := by
      intro i
      simp [netsList, List.take_succ_cons]
    obtain ⟨ihn, ihs⟩ := ih (some s) (k + 1) (P + segNet ops d v Q prev k s)
    by_cases hneg : P + segNet ops d v Q prev k s < 0
    · constructor
      · intro hnone
        exact absurd hnone (by simp [cavIdx?, hneg])
      · intro n hn
        simp only [cavIdx?, if_pos hneg, Option.some.injEq] at hn
        refine ⟨0, by simp, by omega, ?_, fun i hi => absurd hi (Nat.not_lt_zero i)⟩
        rw [hsum 0]
        simpa using hneg
    · constructor
      · intro hnone j hj
        simp only [cavIdx?, if_neg hneg] at hnone
        rw [hsum j, ← add_assoc]
        match j with
        | 0 => simpa using not_lt.mp hneg
        | Nat.succ j' =>
          have hj' : j' < rest.length := by simpa using hj
          have := ihn hnone j' hj'
          simpa [List.take_succ_cons] using this
      · intro n hn
        simp only [cavIdx?, if_neg hneg] at hn
        obtain ⟨j', hj', hne, hnlt, hmin⟩ := ihs n hn
        refine ⟨j' + 1, by simpa using hj', by omega, ?_, ?_⟩
        · rw [hsum (j' + 1), ← add_assoc]
          exact hnlt
        · intro i hi
          match i with
          | 0 =>
            rw [hsum 0]
            simpa using not_lt.mp hneg
          | Nat.succ i' =>
            rw [hsum (i' + 1), ← add_assoc]
            exact hmin i' (by omega)

/-- **C7.** On every successful run, either no warning is present and the
running pressure stayed nonnegative after every effective segment, or the
running pressure went negative somewhere and the warnings field holds exactly
one cavitation warning carrying the 1-based position of the *first* effective
segment after which it did; the field is `none` (absent) whenever no warning
was produced. -/
theorem claim_C7_cavitation_warning (ops : Ops) (p : CalculationParams) :
    ExceptHolds (WellHydraulics.calculatePressureDrop ops p) (fun r =>
      (r.warnings = none ∧
        ∀ j, j < (effectiveSegments p).length →
          0 ≤ p.injectionPressure * 1000 +
            ((netsList ops p.fluidDensity p.fluidViscosity (p.flowRate / SECONDS_PER_DAY)
              none 0 (effectiveSegments p)).take (j + 1)).sum) ∨
      (∃ j, j < (effectiveSegments p).length ∧
        p.injectionPressure * 1000 +
          ((netsList ops p.fluidDensity p.fluidViscosity (p.flowRate / SECONDS_PER_DAY)
            none 0 (effectiveSegments p)).take (j + 1)).sum < 0 ∧
        (∀ i, i < j →
          0 ≤ p.injectionPressure * 1000 +
            ((netsList ops p.fluidDensity p.fluidViscosity (p.flowRate / SECONDS_PER_DAY)
              none 0 (effectiveSegments p)).take (i + 1)).sum) ∧
        r.warnings = some [j + 1])) := by
  rw [exceptHolds_iff]
  intro r hr
  obtain ⟨st, hm, -, -, -, -, -, -, -, -, hw⟩ := calc_ok_elim hr
  have hwm := marchSegs_ok_warnings ops p.fluidDensity p.fluidViscosity
    (p.flowRate / SECONDS_PER_DAY) (effectiveSegments p) none 0 (initState p) st hm
  simp only [initState, if_pos rfl] at hwm
  obtain ⟨hcnone, hcsome⟩ := cavIdx_spec ops p.fluidDensity p.fluidViscosity
    (p.flowRate / SECONDS_PER_DAY) (effectiveSegments p) none 0 (p.injectionPressure * 1000)
  cases hcav : cavIdx? ops p.fluidDensity p.fluidViscosity (p.flowRate / SECONDS_PER_DAY)
      (p.injectionPressure * 1000) none 0 (effectiveSegments p) with
  | none =>
    left
    rw [hcav] at hwm
    simp only [Option.elim] at hwm
    constructor
    · rw [hw, hwm]
      simp
    · intro j hj
      exact hcnone hcav j hj
  | some n =>
    right
    rw [hcav] at hwm
    simp only [Option.elim] at hwm
    obtain ⟨j, hj, hne, hnlt, hmin⟩ := hcsome n hcav
    refine ⟨j, hj, hnlt, hmin, ?_⟩
    rw [hw, hwm]
    have : n = j + 1 := by omega
    simp [this]

/-- The extreme-cavitation scenario of spec §8: 10 kPa injection pushing
300 m³/day of a viscous fluid (μ = 10 Pa·s, laminar) through 100 m of
100 mm tubing. -/
def cavParams : CalculationParams :=
  { segments := [{ id := 1, diameter := 100, length := 100, roughness := 0 }]
    flowRate := 300
    injectionPressure := 10
    bottomholePressure := 0
    fluidDensity := 1000
    fluidViscosity := 10
    wellDepth := 100
    openHoleDiameter := 0 }

/-- Witness for C7: at `cavParams` the calculation succeeds and the warnings
field concretely evaluates to exactly one cavitation warning naming
segment 1, and the theorem applies. -/
theorem claim_C7_witness :
    (WellHydraulics.calculatePressureDrop stubOps cavParams).map (·.warnings) =
      .ok (some [1]) ∧
    ExceptHolds (WellHydraulics.calculatePressureDrop stubOps cavParams) (fun r =>
      (r.warnings = none ∧
        ∀ j, j < (effectiveSegments cavParams).length →
          0 ≤ cavParams.injectionPressure * 1000 +
            ((netsList stubOps cavParams.fluidDensity cavParams.fluidViscosity
              (cavParams.flowRate / SECONDS_PER_DAY)
              none 0 (effectiveSegments cavParams)).take (j + 1)).sum) ∨
      (∃ j, j < (effectiveSegments cavParams).length ∧
        cavParams.injectionPressure * 1000 +
          ((netsList stubOps cavParams.fluidDensity cavParams.fluidViscosity
            (cavParams.flowRate / SECONDS_PER_DAY)
            none 0 (effectiveSegments cavParams)).take (j + 1)).sum < 0 ∧
        (∀ i, i < j →
          0 ≤ cavParams.injectionPressure * 1000 +
            ((netsList stubOps cavParams.fluidDensity cavParams.fluidViscosity
              (cavParams.flowRate / SECONDS_PER_DAY)
              none 0 (effectiveSegments cavParams)).take (i + 1)).sum) ∧
        r.warnings = some [j + 1])) := by
  constructor
  · norm_num [WellHydraulics.calculatePressureDrop, marchSegs, marchStep, effectiveSegments,
      openHoleLength, totalSegmentLength, openHoleSeg, initState, mkResults, mkMaxFlow, availP,
      segD, segA, segV, segRe, segRR, segF, segHf, segFric, segMinor, entryLossOf, transLossOf,
      segNet, segRegime,
      WellHydraulics.calculateReynolds, WellHydraulics.calculateFrictionFactor,
      WellHydraulics.calculateTurbulentFriction, firstMaxLoss, powR, GRAVITY, PI,
      LAMINAR_FLOW_LIMIT, TURBULENT_FLOW_START, SECONDS_PER_DAY, ENTRY_LOSS_COEFFICIENT,
      DEFAULT_OPEN_HOLE_ROUGHNESS, stubOps, cavParams, Except.map]
  · exact claim_C7_cavitation_warning stubOps cavParams

/-! ## Claim C9: per-segment monotonicity facts -/

theorem PI_pos : (0 : ℚ) < PI := by norm_num [PI]

theorem segA_pos {s : Segment} (h : 0 < s.diameter) : 0 < segA s := by
  unfold segA segD
  have hD : 0 < s.diameter / 1000 / 2 := by positivity
  exact mul_pos PI_pos (pow_pos hD 2)

theorem segRegime_laminar_iff (d v Q : ℚ) (s : Segment) :
    segRegime d v Q s = FlowRegime.Laminar ↔ segRe d v Q s < LAMINAR_FLOW_LIMIT := by
  unfold segRegime
  by_cases h1 : segRe d v Q s < LAMINAR_FLOW_LIMIT
  · simp [h1]
  · by_cases h2 : segRe d v Q s < TURBULENT_FLOW_START <;> simp [h1, h2]

/-- The Reynolds number as an explicit linear function of `Q`. -/
theorem segRe_eq {d v Q : ℚ} {s : Segment} (hv : v ≠ 0) (hD : s.diameter ≠ 0) :
    segRe d v Q s = d * (s.diameter / 1000) / (v * segA s) * Q := by
  unfold segRe WellHydraulics.calculateReynolds segV
  rw [if_neg (by
    push_neg
    refine ⟨hv, ?_⟩
    unfold segD
    exact div_ne_zero hD (by norm_num))]
  unfold segD
  field_simp
  ring

/-- The laminar friction pressure loss as an explicit linear function of
`Q`. -/
theorem segFric_lam (ops : Ops) {d v Q : ℚ} {s : Segment}
    (hd : 0 < d) (hv : 0 < v) (hQ : 0 < Q) (hD : 0 < s.diameter)
    (hlam : segRe d v Q s < LAMINAR_FLOW_LIMIT) :
    segFric ops d v Q s =
      32 * v * s.length / ((s.diameter / 1000) ^ 2 * segA s) * Q := by
  have hA : 0 < segA s := segA_pos hD
  have hV : 0 < segV Q s := div_pos hQ hA
  have hRe : 0 < segRe d v Q s := by
    rw [segRe_eq (ne_of_gt hv) (ne_of_gt hD)]
    have : 0 < d * (s.diameter / 1000) / (v * segA s) := by positivity
    positivity
  unfold segFric segHf
  rw [if_neg (ne_of_gt hV)]
  unfold segF
  unfold WellHydraulics.calculateFrictionFactor
  rw [if_neg (not_le.mpr hRe), if_pos hlam]
  have hReV : segRe d v Q s = d * segV Q s * segD s / v := by
    unfold segRe WellHydraulics.calculateReynolds
    rw [if_neg (by
      push_neg
      refine ⟨ne_of_gt hv, ?_⟩
      unfold segD
      exact div_ne_zero (ne_of_gt hD) (by norm_num))]
  rw [hReV]
  unfold segV segD
  have h1000 : (0 : ℚ) < 1000 := by norm_num
  have hG : (0 : ℚ) < GRAVITY := by norm_num [GRAVITY]
  field_simp
  ring

/-- Strict monotonicity of the laminar friction loss in the flow. -/
theorem segFric_lt (ops : Ops) {d v Q1 Q2 : ℚ} {s : Segment}
    (hd : 0 < d) (hv : 0 < v) (h0 : 0 ≤ Q1) (h12 : Q1 < Q2) (hD : 0 < s.diameter)
    (hL : 0 < s.length) (hlam2 : segRe d v Q2 s < LAMINAR_FLOW_LIMIT) :
    segFric ops d v Q1 s < segFric ops d v Q2 s := by
  have hA : 0 < segA s := segA_pos hD
  have hQ2 : 0 < Q2 := lt_of_le_of_lt h0 h12
  have hcoef : 0 < 32 * v * s.length / ((s.diameter / 1000) ^ 2 * segA s) := by
    have hDq : 0 < s.diameter / 1000 := by positivity
    positivity
  rcases eq_or_lt_of_le h0 with h0e | h0lt
  · rw [← h0e, segFric_zero, segFric_lam ops hd hv hQ2 hD hlam2]
    positivity
  · have hcoef0 : 0 ≤ d * (s.diameter / 1000) / (v * segA s) := by positivity
    have hlam1 : segRe d v Q1 s < LAMINAR_FLOW_LIMIT := by
      calc segRe d v Q1 s ≤ segRe d v Q2 s := by
            rw [segRe_eq (ne_of_gt hv) (ne_of_gt hD), segRe_eq (ne_of_gt hv) (ne_of_gt hD)]
            exact mul_le_mul_of_nonneg_left (le_of_lt h12) hcoef0
        _ < LAMINAR_FLOW_LIMIT := hlam2
    rw [segFric_lam ops hd hv h0lt hD hlam1, segFric_lam ops hd hv hQ2 hD hlam2]
    exact mul_lt_mul_of_pos_left h12 hcoef

/-- Monotonicity (non-strict) of the laminar friction loss. -/
theorem segFric_le (ops : Ops) {d v Q1 Q2 : ℚ} {s : Segment}
    (hd : 0 < d) (hv : 0 < v) (h0 : 0 ≤ Q1) (h12 : Q1 ≤ Q2) (hD : 0 < s.diameter)
    (hL : 0 < s.length) (hlam2 : segRe d v Q2 s < LAMINAR_FLOW_LIMIT) :
    segFric ops d v Q1 s ≤ segFric ops d v Q2 s := by
  rcases eq_or_lt_of_le h12 with he | hlt
  · rw [he]
  · exact le_of_lt (segFric_lt ops hd hv h0 hlt hD hL hlam2)

theorem segA_nonneg (s : Segment) : 0 ≤ segA s := by
  unfold segA segD
  exact mul_nonneg (le_of_lt PI_pos) (sq_nonneg _)

theorem entryLoss_nonneg {d Q : ℚ} (hd : 0 ≤ d) (k : Nat) (s : Segment) :
    0 ≤ entryLossOf d Q k s := by
  unfold entryLossOf
  by_cases hk : k = 0
  · rw [if_pos hk]
    have hE : (0 : ℚ) ≤ ENTRY_LOSS_COEFFICIENT := by norm_num [ENTRY_LOSS_COEFFICIENT]
    positivity
  · rw [if_neg hk]

theorem transLoss_nonneg {d Q : ℚ} (hd : 0 ≤ d) (prev : Option Segment) (s : Segment) :
    0 ≤ transLossOf d Q prev s := by
  cases prev with
  | none => simp [transLossOf]
  | some pseg =>
    simp only [transLossOf]
    by_cases hc : segA s > 0 ∧ segA pseg > 0 ∧ Q > 0
    · rw [if_pos hc]
      by_cases h1 : segA s < segA pseg
      · rw [if_pos h1]
        positivity
      · rw [if_neg h1]
        by_cases h2 : segA s > segA pseg
        · rw [if_pos h2]
          positivity
        · rw [if_neg h2]
    · rw [if_neg hc]

theorem segMinor_nonneg {d Q : ℚ} (hd : 0 ≤ d) (prev : Option Segment) (k : Nat)
    (s : Segment) : 0 ≤ segMinor d Q prev k s :=
  add_nonneg (entryLoss_nonneg hd k s) (transLoss_nonneg hd prev s)

/-- Velocities grow with the flow (this includes the degenerate zero-area
case, where both velocities are the rational `Q/0 = 0`). -/
theorem segV_mono {Q1 Q2 : ℚ} (h0 : 0 ≤ Q1) (h12 : Q1 ≤ Q2) (s : Segment) :
    segV Q1 s ≤ segV Q2 s ∧ 0 ≤ segV Q1 s := by
  unfold segV
  rcases eq_or_lt_of_le (segA_nonneg s) with hA | hA
  · rw [← hA, div_zero, div_zero]
    exact ⟨le_refl 0, le_refl 0⟩
  · exact ⟨by gcongr, div_nonneg h0 (le_of_lt hA)⟩

theorem sq_div_mono {d c V1 V2 : ℚ} (hd : 0 ≤ d) (hc : 0 ≤ c) (h1 : 0 ≤ V1)
    (h12 : V1 ≤ V2) : c * d * V1 ^ 2 / 2 ≤ c * d * V2 ^ 2 / 2 := by
  gcongr

/-- Monotonicity of the minor loss in the flow. -/
theorem segMinor_le {d Q1 Q2 : ℚ} (hd : 0 ≤ d) (h0 : 0 ≤ Q1) (h12 : Q1 ≤ Q2)
    (prev : Option Segment) (k : Nat) (s : Segment) :
    segMinor d Q1 prev k s ≤ segMinor d Q2 prev k s := by
  unfold segMinor
  refine add_le_add ?_ ?_
  · unfold entryLossOf
    by_cases hk : k = 0
    · rw [if_pos hk, if_pos hk]
      obtain ⟨hVle, hV0⟩ := segV_mono h0 h12 s
      have hE : (0 : ℚ) ≤ ENTRY_LOSS_COEFFICIENT := by norm_num [ENTRY_LOSS_COEFFICIENT]
      exact sq_div_mono hd hE hV0 hVle
    · rw [if_neg hk, if_neg hk]
  · cases prev with
    | none => simp [transLossOf]
    | some pseg =>
      simp only [transLossOf]
      by_cases hQ1 : 0 < Q1
      · have hQ2 : 0 < Q2 := lt_of_lt_of_le hQ1 h12
        by_cases hAs : 0 < segA s
        · by_cases hAp : 0 < segA pseg
          · rw [if_pos (⟨hAs, hAp, hQ1⟩ : segA s > 0 ∧ segA pseg > 0 ∧ Q1 > 0)]
            rw [if_pos (⟨hAs, hAp, hQ2⟩ : segA s > 0 ∧ segA pseg > 0 ∧ Q2 > 0)]
            obtain ⟨hVle, hV0⟩ := segV_mono h0 h12 s
            obtain ⟨hpVle, hpV0⟩ := segV_mono h0 h12 pseg
            by_cases h1 : segA s < segA pseg
            · rw [if_pos h1, if_pos h1]
              exact sq_div_mono hd (by positivity) hV0 hVle
            · rw [if_neg h1, if_neg h1]
              by_cases h2 : segA s > segA pseg
              · rw [if_pos h2, if_pos h2]
                have hKe : (0 : ℚ) ≤ (1 - segA pseg / segA s) ^ 2 := sq_nonneg _
                have hpV : (Q1 / segA pseg) ≤ Q2 / segA pseg := by gcongr
                have hpV0q : 0 ≤ Q1 / segA pseg := div_nonneg h0 (le_of_lt hAp)
                exact sq_div_mono hd hKe hpV0q hpV
              · rw [if_neg h2, if_neg h2]
          · rw [if_neg (fun hc => absurd hc.2.1 (not_lt.mpr (le_of_not_lt hAp))),
              if_neg (fun hc => absurd hc.2.1 (not_lt.mpr (le_of_not_lt hAp)))]
        · rw [if_neg (fun hc => absurd hc.1 (not_lt.mpr (le_of_not_lt hAs))),
            if_neg (fun hc => absurd hc.1 (not_lt.mpr (le_of_not_lt hAs)))]
      · have hq1 : Q1 = 0 := le_antisymm (not_lt.mp hQ1) h0
        rw [if_neg (fun hc => hQ1 hc.2.2)]
        have htl := transLoss_nonneg (d := d) (Q := Q2) hd (some pseg) s
        simp only [transLossOf] at htl
        exact htl

/-! ## Claim C9: list-level monotonicity facts -/

theorem segFric_pos (ops : Ops) {d v Q : ℚ} {s : Segment}
    (hd : 0 < d) (hv : 0 < v) (hQ : 0 < Q) (hD : 0 < s.diameter) (hL : 0 < s.length)
    (hlam : segRe d v Q s < LAMINAR_FLOW_LIMIT) : 0 < segFric ops d v Q s := by
  rw [segFric_lam ops hd hv hQ hD hlam]
  have hA : 0 < segA s := segA_pos hD
  have hDq : 0 < s.diameter / 1000 := by positivity
  positivity

theorem map_sum_lt (f g : Segment → ℚ) :
    ∀ l : List Segment, l ≠ [] → (∀ s ∈ l, f s < g s) →
      (l.map f).sum < (l.map g).sum := by
  intro l
  induction l with
  | nil => intro h; exact absurd rfl h
  | cons s rest ih =>
    intro _ h
    simp only [List.map_cons, List.sum_cons]
    rcases eq_or_ne rest [] with he | hne
    · subst he
      simpa using h s (List.mem_cons_self s [])
    · exact add_lt_add (h s (List.mem_cons_self s rest))
        (ih hne (fun t ht => h t (List.mem_cons_of_mem s ht)))

theorem pdList_sum_le (ops : Ops) {d v Q1 Q2 : ℚ} (hd : 0 < d) (hv : 0 < v)
    (h0 : 0 ≤ Q1) (h12 : Q1 ≤ Q2) :
    ∀ (segs : List Segment) (prev : Option Segment) (k : Nat),
      (∀ s ∈ segs, 0 < s.diameter ∧ 0 < s.length ∧ segRe d v Q2 s < LAMINAR_FLOW_LIMIT) →
      (pdList ops d v Q1 prev k segs).sum ≤ (pdList ops d v Q2 prev k segs).sum := by
  intro segs
  induction segs with
  | nil => intro prev k _; simp [pdList]
  | cons s rest ih =>
    intro prev k h
    obtain ⟨hD, hL, hlam⟩ := h s (List.mem_cons_self s rest)
    simp only [pdList, List.sum_cons]
    refine add_le_add (add_le_add ?_ ?_)
      (ih (some s) (k + 1) (fun t ht => h t (List.mem_cons_of_mem s ht)))
    · exact segFric_le ops hd hv h0 h12 hD hL hlam
    · exact segMinor_le (le_of_lt hd) h0 h12 prev k s

theorem pdList_sum_ge_fric (ops : Ops) {d : ℚ} (v Q : ℚ) (hd : 0 ≤ d) :
    ∀ (segs : List Segment) (prev : Option Segment) (k : Nat),
      (segs.map (segFric ops d v Q)).sum ≤ (pdList ops d v Q prev k segs).sum := by
  intro segs
  induction segs with
  | nil => intro prev k; simp [pdList]
  | cons s rest ih =>
    intro prev k
    simp only [pdList, List.map_cons, List.sum_cons]
    have := segMinor_nonneg (d := d) (Q := Q) hd prev k s
    have hrest := ih (some s) (k + 1)
    linarith

theorem foldl_pick_mem :
    ∀ (xs : List (ℚ × FlowRegime)) (x : ℚ × FlowRegime),
      xs.foldl (fun m c => if c.1 > m.1 then c else m) x = x ∨
      xs.foldl (fun m c => if c.1 > m.1 then c else m) x ∈ xs := by
  intro xs
  induction xs with
  | nil => intro x; exact Or.inl rfl
  | cons c rest ih =>
    intro x
    simp only [List.foldl_cons]
    rcases ih (if c.1 > x.1 then c else x) with hr | hr
    · rw [hr]
      by_cases hc : c.1 > x.1
      · right
        rw [if_pos hc]
        exact List.mem_cons_self c rest
      · left
        rw [if_neg hc]
    · right
      exact List.mem_cons_of_mem c hr

theorem firstMaxLoss_laminar (l : List (ℚ × FlowRegime))
    (h : ∀ x ∈ l, x.2 = FlowRegime.Laminar) :
    ∀ m, firstMaxLoss l = some m → m.2 = FlowRegime.Laminar := by
  intro m hm
  cases l with
  | nil => cases hm
  | cons x xs =>
    simp only [firstMaxLoss, Option.some.injEq] at hm
    rcases foldl_pick_mem xs x with hr | hr
    · rw [← hm, hr]
      exact h x (List.mem_cons_self x xs)
    · rw [← hm]
      exact h _ (List.mem_cons_of_mem x hr)

theorem powR_one (ops : Ops) (x : ℚ) : powR ops x 1 = x := by simp [powR]

/-- `mkMaxFlow` in the laminar-dominant case: the extrapolation exponent is 1
and `Math.pow` collapses. -/
theorem mkMaxFlow_laminar (ops : Ops) (p : CalculationParams) (st : MarchState)
    (hdom : ∃ m, firstMaxLoss st.frictionLosses = some m ∧ m.2 = FlowRegime.Laminar) :
    mkMaxFlow ops p st =
      if availP p ≤ 0 then MaxFlow.val 0
      else if st.totalPressureDrop ≤ 0 ∨ p.flowRate / SECONDS_PER_DAY = 0 then MaxFlow.inf
      else MaxFlow.val (p.flowRate * (availP p / st.totalPressureDrop)) := by
  obtain ⟨m, hm, hm2⟩ := hdom
  simp only [mkMaxFlow, hm, hm2]
  norm_num [powR_one]

/-- "the max-flow headroom for q2 is less than or equal to that for q1":
comparison of `maxFlowRate` relative to the requested rate, an infinite
max-flow counting as unbounded headroom. -/
def headroomLE (m2 : MaxFlow) (q2 : ℚ) (m1 : MaxFlow) (q1 : ℚ) : Prop :=
  match m1, m2 with
  | .inf, _ => True
  | .val _, .inf => False
  | .val a, .val b => b / q2 ≤ a / q1

theorem segRe_le_of_le {d v Q1 Q2 : ℚ} {s : Segment} (hd : 0 < d) (hv : 0 < v)
    (h12 : Q1 ≤ Q2) (hD : 0 < s.diameter) :
    segRe d v Q1 s ≤ segRe d v Q2 s := by
  rw [segRe_eq (ne_of_gt hv) (ne_of_gt hD), segRe_eq (ne_of_gt hv) (ne_of_gt hD)]
  have hA : 0 < segA s := segA_pos hD
  have hDq : 0 < s.diameter / 1000 := by positivity
  exact mul_le_mul_of_nonneg_left h12 (by positivity)

/-- **C9 (amended).**  For a fixed geometry whose effective segments are
nonempty with positive lengths, positive density and viscosity, and two flow
rates `0 ≤ q1 < q2` such that every effective segment is laminar at `q2`
(hence at `q1`), whenever both runs succeed the total friction loss strictly
increases and the max-flow headroom (maxFlowRate relative to the requested
rate) does not increase. -/
theorem claim_C9_monotonicity (ops : Ops) (p : CalculationParams) (q1 q2 : ℚ)
    (h0 : 0 ≤ q1) (h12 : q1 < q2)
    (hρ : 0 < p.fluidDensity) (hμ : 0 < p.fluidViscosity)
    (hne : effectiveSegments p ≠ [])
    (hlen : ∀ s ∈ effectiveSegments p, 0 < s.length)
    (hlam : ∀ s ∈ effectiveSegments p,
      segRegime p.fluidDensity p.fluidViscosity (q2 / SECONDS_PER_DAY) s = FlowRegime.Laminar) :
    ExceptHolds (WellHydraulics.calculatePressureDrop ops { p with flowRate := q1 }) (fun r1 =>
      ExceptHolds (WellHydraulics.calculatePressureDrop ops { p with flowRate := q2 }) (fun r2 =>
        r1.totalFrictionLoss < r2.totalFrictionLoss ∧
        headroomLE r2.maxFlowRate q2 r1.maxFlowRate q1)) := by
  rw [exceptHolds_iff]
  intro r1 hr1
  rw [exceptHolds_iff]
  intro r2 hr2
  obtain ⟨st1, hm1, -, hfl1, -, -, hmf1, -, -, -, -⟩ := calc_ok_elim hr1
  obtain ⟨st2, hm2, -, hfl2, -, -, hmf2, -, -, -, -⟩ := calc_ok_elim hr2
  dsimp only at hm1 hm2 hmf1 hmf2
  have heff1 : effectiveSegments { p with flowRate := q1 } = effectiveSegments p := rfl
  have heff2 : effectiveSegments { p with flowRate := q2 } = effectiveSegments p := rfl
  have hini1 : initState { p with flowRate := q1 } = initState p := rfl
  have hini2 : initState { p with flowRate := q2 } = initState p := rfl
  rw [heff1, hini1] at hm1
  rw [heff2, hini2] at hm2
  have hQ0 : 0 ≤ q1 / SECONDS_PER_DAY := by
    have : (0 : ℚ) < SECONDS_PER_DAY := by norm_num [SECONDS_PER_DAY]
    positivity
  have hQ12 : q1 / SECONDS_PER_DAY < q2 / SECONDS_PER_DAY := by
    have : (0 : ℚ) < SECONDS_PER_DAY := by norm_num [SECONDS_PER_DAY]
    gcongr
  have hQ2pos : 0 < q2 / SECONDS_PER_DAY := lt_of_le_of_lt hQ0 hQ12
  have hdiam : ∀ s ∈ effectiveSegments p, 0 < s.diameter :=
    marchSegs_ok_diam ops p.fluidDensity p.fluidViscosity (q2 / SECONDS_PER_DAY)
      (effectiveSegments p) none 0 _ st2 hm2
  have hlam2 : ∀ s ∈ effectiveSegments p,
      segRe p.fluidDensity p.fluidViscosity (q2 / SECONDS_PER_DAY) s < LAMINAR_FLOW_LIMIT :=
    fun s hs => (segRegime_laminar_iff _ _ _ s).mp (hlam s hs)
  have hlam1 : ∀ s ∈ effectiveSegments p,
      segRe p.fluidDensity p.fluidViscosity (q1 / SECONDS_PER_DAY) s < LAMINAR_FLOW_LIMIT :=
    fun s hs => lt_of_le_of_lt
      (segRe_le_of_le hρ hμ (le_of_lt hQ12) (hdiam s hs)) (hlam2 s hs)
  obtain ⟨e11, e12, -, -, e15⟩ := marchSegs_ok_totals ops p.fluidDensity p.fluidViscosity
    (q1 / SECONDS_PER_DAY) (effectiveSegments p) none 0 _ st1 hm1
  obtain ⟨e21, e22, -, -, e25⟩ := marchSegs_ok_totals ops p.fluidDensity p.fluidViscosity
    (q2 / SECONDS_PER_DAY) (effectiveSegments p) none 0 _ st2 hm2
  simp only [initState, List.nil_append] at e11 e12 e15 e21 e22 e25
  rw [zero_add] at e11 e12 e21 e22
  constructor
  · -- strict increase of the total friction loss
    rw [hfl1, hfl2, e11, e21]
    have hsum := map_sum_lt
      (segFric ops p.fluidDensity p.fluidViscosity (q1 / SECONDS_PER_DAY))
      (segFric ops p.fluidDensity p.fluidViscosity (q2 / SECONDS_PER_DAY))
      (effectiveSegments p) hne
      (fun s hs => segFric_lt ops hρ hμ hQ0 hQ12 (hdiam s hs) (hlen s hs) (hlam2 s hs))
    have h1000 : (0 : ℚ) < 1000 := by norm_num
    exact (div_lt_div_iff_of_pos_right h1000).mpr hsum
  · -- headroom does not increase
    have hdom : ∀ (st : MarchState) (Q : ℚ),
        st.frictionLosses = (effectiveSegments p).map (fun s =>
          (segFric ops p.fluidDensity p.fluidViscosity Q s,
           segRegime p.fluidDensity p.fluidViscosity Q s)) →
        (∀ s ∈ effectiveSegments p,
          segRegime p.fluidDensity p.fluidViscosity Q s = FlowRegime.Laminar) →
        ∃ m, firstMaxLoss st.frictionLosses = some m ∧ m.2 = FlowRegime.Laminar := by
      intro st Q hfls hlamQ
      have hmem : ∀ x ∈ st.frictionLosses, x.2 = FlowRegime.Laminar := by
        intro x hx
        rw [hfls] at hx
        obtain ⟨s, hs, hxe⟩ := List.mem_map.mp hx
        rw [← hxe]
        exact hlamQ s hs
      have hnil : st.frictionLosses ≠ [] := by
        rw [hfls]
        simpa using hne
      cases hfm : firstMaxLoss st.frictionLosses with
      | none =>
        exfalso
        cases hl : st.frictionLosses with
        | nil => exact hnil hl
        | cons a as => rw [hl] at hfm; simp [firstMaxLoss] at hfm
      | some m => exact ⟨m, rfl, firstMaxLoss_laminar _ hmem m hfm⟩
    have hlamreg1 : ∀ s ∈ effectiveSegments p,
        segRegime p.fluidDensity p.fluidViscosity (q1 / SECONDS_PER_DAY) s =
          FlowRegime.Laminar :=
      fun s hs => (segRegime_laminar_iff _ _ _ s).mpr (hlam1 s hs)
    have hmk1 := mkMaxFlow_laminar ops { p with flowRate := q1 } st1
      (hdom st1 (q1 / SECONDS_PER_DAY) e15 hlamreg1)
    have hmk2 := mkMaxFlow_laminar ops { p with flowRate := q2 } st2
      (hdom st2 (q2 / SECONDS_PER_DAY) e25 hlam)
    rw [hmf1, hmk1, hmf2, hmk2]
    dsimp only
    have havP : availP { p with flowRate := q1 } = availP p := rfl
    have havP2 : availP { p with flowRate := q2 } = availP p := rfl
    rw [havP, havP2]
    by_cases hav : availP p ≤ 0
    · rw [if_pos hav, if_pos hav]
      simp [headroomLE]
    · rw [if_neg hav, if_neg hav]
      have hpack : ∀ s ∈ effectiveSegments p, 0 < s.diameter ∧ 0 < s.length ∧
          segRe p.fluidDensity p.fluidViscosity (q2 / SECONDS_PER_DAY) s <
            LAMINAR_FLOW_LIMIT :=
        fun s hs => ⟨hdiam s hs, hlen s hs, hlam2 s hs⟩
      have hfric2pos : 0 < ((effectiveSegments p).map
          (segFric ops p.fluidDensity p.fluidViscosity (q2 / SECONDS_PER_DAY))).sum := by
        refine List.sum_pos _ ?_ (by simpa using hne)
        intro x hx
        obtain ⟨s, hs, hxe⟩ := List.mem_map.mp hx
        rw [← hxe]
        exact segFric_pos ops hρ hμ hQ2pos (hdiam s hs) (hlen s hs) (hlam2 s hs)
      have hT2pos : 0 < st2.totalPressureDrop := by
        rw [e22]
        exact lt_of_lt_of_le hfric2pos
          (pdList_sum_ge_fric ops _ _ (le_of_lt hρ) (effectiveSegments p) none 0)
      have hT12 : st1.totalPressureDrop ≤ st2.totalPressureDrop := by
        rw [e12, e22]
        exact pdList_sum_le ops hρ hμ hQ0 (le_of_lt hQ12) (effectiveSegments p) none 0 hpack
      rw [if_neg (by push_neg; exact ⟨hT2pos, ne_of_gt hQ2pos⟩)]
      rcases eq_or_lt_of_le h0 with hq1z | hq1pos
      · -- q1 = 0: the first run's max flow is infinite, headroom is unbounded
        rw [if_pos (Or.inr (by rw [← hq1z, zero_div]))]
        simp [headroomLE]
      · have hQ1pos : 0 < q1 / SECONDS_PER_DAY := by
          have : (0 : ℚ) < SECONDS_PER_DAY := by norm_num [SECONDS_PER_DAY]
          positivity
        have hfric1pos : 0 < ((effectiveSegments p).map
            (segFric ops p.fluidDensity p.fluidViscosity (q1 / SECONDS_PER_DAY))).sum := by
          refine List.sum_pos _ ?_ (by simpa using hne)
          intro x hx
          obtain ⟨s, hs, hxe⟩ := List.mem_map.mp hx
          rw [← hxe]
          exact segFric_pos ops hρ hμ hQ1pos (hdiam s hs) (hlen s hs) (hlam1 s hs)
        have hT1pos : 0 < st1.totalPressureDrop := by
          rw [e12]
          exact lt_of_lt_of_le hfric1pos
            (pdList_sum_ge_fric ops _ _ (le_of_lt hρ) (effectiveSegments p) none 0)
        rw [if_neg (by push_neg; exact ⟨hT1pos, ne_of_gt hQ1pos⟩)]
        show (q2 * (availP p / st2.totalPressureDrop)) / q2 ≤
          (q1 * (availP p / st1.totalPressureDrop)) / q1
        have hq2pos : (0 : ℚ) < q2 := lt_of_le_of_lt h0 h12
        rw [mul_comm q2, mul_comm q1,
          mul_div_cancel_right₀ _ (ne_of_gt hq2pos),
          mul_div_cancel_right₀ _ (ne_of_gt hq1pos)]
        rw [div_le_div_iff₀ hT2pos hT1pos]
        exact mul_le_mul_of_nonneg_left hT12 (le_of_lt (lt_of_not_le hav))

/-- A zero-length segment in a zero-depth well: a degenerate geometry the
engine accepts. -/
def zeroLenParams : CalculationParams :=
  { segments := [{ id := 1, diameter := 100, length := 0, roughness := 0 }]
    flowRate := 1
    injectionPressure := 0
    bottomholePressure := 0
    fluidDensity := 1000
    fluidViscosity := 1 / 1000
    wellDepth := 0
    openHoleDiameter := 0 }

/-- **Counterexample to C9 as stated.**  With a zero-length segment (nothing
in the engine rejects it) the friction loss is 0 at every flow rate, so for
the flow rates 1 < 2 m³/day both successful runs return
`totalFrictionLoss = 0` and the strict increase fails.  Both runs are
laminar, so the evaluation path never consults the uninterpreted
transcendental primitives. -/
theorem claim_C9_counterexample :
    0 < zeroLenParams.fluidDensity ∧ 0 < zeroLenParams.fluidViscosity ∧
    (WellHydraulics.calculatePressureDrop stubOps zeroLenParams).map
      (·.totalFrictionLoss) = .ok 0 ∧
    (WellHydraulics.calculatePressureDrop stubOps { zeroLenParams with flowRate := 2 }).map
      (·.totalFrictionLoss) = .ok 0 := by
  refine ⟨by norm_num [zeroLenParams], by norm_num [zeroLenParams], ?_, ?_⟩ <;>
    norm_num [WellHydraulics.calculatePressureDrop, marchSegs, marchStep, effectiveSegments,
      openHoleLength, totalSegmentLength, openHoleSeg, initState, mkResults, mkMaxFlow, availP,
      segD, segA, segV, segRe, segRR, segF, segHf, segFric, segMinor, entryLossOf, transLossOf,
      segNet, segRegime,
      WellHydraulics.calculateReynolds, WellHydraulics.calculateFrictionFactor,
      WellHydraulics.calculateTurbulentFriction, firstMaxLoss, powR, GRAVITY, PI,
      LAMINAR_FLOW_LIMIT, TURBULENT_FLOW_START, SECONDS_PER_DAY, ENTRY_LOSS_COEFFICIENT,
      DEFAULT_OPEN_HOLE_ROUGHNESS, stubOps, zeroLenParams, Except.map]

/-- Witness for C9 (amended): the hypotheses hold at `lamFlowParams` with
flow rates 1 < 2 m³/day (both runs succeed — their warnings fields
concretely evaluate to `none` — and the regimes are laminar), and the
theorem applies. -/
theorem claim_C9_witness :
    (WellHydraulics.calculatePressureDrop stubOps { lamFlowParams with flowRate := 1 }).map
      (·.warnings) = .ok none ∧
    (WellHydraulics.calculatePressureDrop stubOps { lamFlowParams with flowRate := 2 }).map
      (·.warnings) = .ok none ∧
    ExceptHolds (WellHydraulics.calculatePressureDrop stubOps
        { lamFlowParams with flowRate := 1 }) (fun r1 =>
      ExceptHolds (WellHydraulics.calculatePressureDrop stubOps
          { lamFlowParams with flowRate := 2 }) (fun r2 =>
        r1.totalFrictionLoss < r2.totalFrictionLoss ∧
        headroomLE r2.maxFlowRate 2 r1.maxFlowRate 1)) := by
  refine ⟨?_, ?_, ?_⟩
  · norm_num [WellHydraulics.calculatePressureDrop, marchSegs, marchStep, effectiveSegments,
      openHoleLength, totalSegmentLength, openHoleSeg, initState, mkResults, mkMaxFlow, availP,
      segD, segA, segV, segRe, segRR, segF, segHf, segFric, segMinor, entryLossOf, transLossOf,
      segNet, segRegime,
      WellHydraulics.calculateReynolds, WellHydraulics.calculateFrictionFactor,
      WellHydraulics.calculateTurbulentFriction, firstMaxLoss, powR, GRAVITY, PI,
      LAMINAR_FLOW_LIMIT, TURBULENT_FLOW_START, SECONDS_PER_DAY, ENTRY_LOSS_COEFFICIENT,
      DEFAULT_OPEN_HOLE_ROUGHNESS, stubOps, lamFlowParams, Except.map]
  · norm_num [WellHydraulics.calculatePressureDrop, marchSegs, marchStep, effectiveSegments,
      openHoleLength, totalSegmentLength, openHoleSeg, initState, mkResults, mkMaxFlow, availP,
      segD, segA, segV, segRe, segRR, segF, segHf, segFric, segMinor, entryLossOf, transLossOf,
      segNet, segRegime,
      WellHydraulics.calculateReynolds, WellHydraulics.calculateFrictionFactor,
      WellHydraulics.calculateTurbulentFriction, firstMaxLoss, powR, GRAVITY, PI,
      LAMINAR_FLOW_LIMIT, TURBULENT_FLOW_START, SECONDS_PER_DAY, ENTRY_LOSS_COEFFICIENT,
      DEFAULT_OPEN_HOLE_ROUGHNESS, stubOps, lamFlowParams, Except.map]
  · exact claim_C9_monotonicity stubOps lamFlowParams 1 2 (by norm_num) (by norm_num)
      (by norm_num [lamFlowParams]) (by norm_num [lamFlowParams])
      (by norm_num [effectiveSegments, openHoleLength, totalSegmentLength, lamFlowParams])
      (by
        intro s hs
        simp only [effectiveSegments, openHoleLength, totalSegmentLength, lamFlowParams] at hs
        norm_num at hs
        subst hs
        norm_num)
      (by
        intro s hs
        simp only [effectiveSegments, openHoleLength, totalSegmentLength, lamFlowParams] at hs
        norm_num at hs
        subst hs
        norm_num [segRegime, segRe, segV, segA, segD, WellHydraulics.calculateReynolds,
          lamFlowParams, PI, SECONDS_PER_DAY, LAMINAR_FLOW_LIMIT, TURBULENT_FLOW_START])
